import Mathlib

/-!
Verification of the rastertotpcl raster-to-TPCL encoding pipeline.

This file contains a shallow embedding, in Lean 4, of the algorithmic core of
the rastertotpcl driver:

* the TOPIX 3-level hierarchical XOR compressor
  (src/tpcl-compression.c, tpcl_topix_compress_line; the identical copy in
  src/tpcl-driver.c, tpcl_topix_compress),
* the TOPIX flush routine (src/tpcl-compression.c, tpcl_topix_flush;
  src/tpcl-driver.c, tpcl_topix_output_buffer),
* the per-line flush policy of tpcl_rwriteline_cb (src/tpcl-driver.c),
* the dither matrix builders (src/dithering.c),
* the scanline transformer and nibble-ASCII encoder of tpcl_rwriteline_cb,
* the label geometry state tracker (src/tpcl-state.c,
  tpcl_state_check_and_update).

Bytes are modelled as natural numbers; every hypothesis of the form
b < 256 marks the domain on which the embedding coincides with the
C unsigned char arithmetic.  C arrays are modelled as lists, with the
convention that List.getD i 0 reads index i and List.set writes it.
-/

/-! ## TOPIX compressor (tpcl_topix_compress_line)

The C routine walks the line through a 3-level loop nest
(l1 = 0..7, l2 = 1..8, l3 = 1..8) with a running linear index i that is
incremented with l3 and bounds every loop by i < width.  The cell visited
at (l1, l2, l3) therefore has linear index 64*l1 + 8*(l2-1) + (l3-1), and
a cell is visited exactly when that index is below the line width: the
functional embedding below uses that characterisation directly.  Cells
that the loops never visit keep their zero initialisation, which the
else-branch of topixCell reproduces. -/

/-- XOR delta of the visited cell at hierarchy position (l1, l2, l3) with
l2, l3 in 1..8; the line width is the length of the current line, and an
unvisited cell (linear index at or beyond the width) stays 0. -/
def topixCell (cur prev : List Nat) (l1 l2 l3 : Nat) : Nat :=
  let i := 64 * l1 + 8 * (l2 - 1) + (l3 - 1)
  if i < cur.length then (cur.getD i 0) ^^^ (prev.getD i 0) else 0

/-- The bitmask accumulation loop shared by all three hierarchy levels:
bit (7 - k) is ORed in when the k-th tested value is non-zero (the C tests
value > 0, identical to a non-zero test on unsigned char). -/
def topixMask (g : Nat → Bool) : Nat :=
  (List.range 8).foldl (fun acc k => if g k then acc ||| (1 <<< (7 - k)) else acc) 0

/-- Level-3 "changed" byte cl3 for the level-2 group (l1, l2): in the C
loop cl3 receives bit 1 <<< (8 - l3) for every visited non-zero delta. -/
def topixCl3 (cur prev : List Nat) (l1 l2 : Nat) : Nat :=
  topixMask (fun k => topixCell cur prev l1 l2 (k + 1) != 0)

/-- Level-2 "changed" byte cl2 for level-1 group l1: bit 1 <<< (8 - l2)
for every non-zero cl3. -/
def topixCl2 (cur prev : List Nat) (l1 : Nat) : Nat :=
  topixMask (fun k => topixCl3 cur prev l1 (k + 1) != 0)

/-- Level-1 byte cl1: bit 1 <<< (7 - l1) for every non-zero cl2. -/
def topixCl1 (cur prev : List Nat) : Nat :=
  topixMask (fun k => topixCl2 cur prev k != 0)

/-- Row-major flattening of one l1 slice of the scratch array
line[8][9][9]: row 0 is [cl2, 0 x 8] (indices [l1][0][1..8] are never
written), row l2 in 1..8 is [cl3, deltas]. -/
def topixBlock (cur prev : List Nat) (l1 : Nat) : List Nat :=
  (topixCl2 cur prev l1 :: List.replicate 8 0)
    ++ (List.range 8).flatMap (fun j =>
         topixCl3 cur prev l1 (j + 1)
           :: (List.range 8).map (fun k => topixCell cur prev l1 (j + 1) (k + 1)))

/-- Row-major flattening of the whole scratch array line[8][9][9]. -/
def topixScratch (cur prev : List Nat) : List Nat :=
  (List.range 8).flatMap (topixBlock cur prev)

/-- Bytes appended to the compression buffer for one line: the cl1 byte
always, followed (when cl1 > 0) by every non-zero byte of the scratch
array in row-major order.  The C routine also copies the current line
into last_buffer; in this stateless rendering the caller threads the
previous line explicitly. -/
def tpcl_topix_compress_line (cur prev : List Nat) : List Nat :=
  let cl1 := topixCl1 cur prev
  cl1 :: (if cl1 > 0 then (topixScratch cur prev).filter (fun b => b != 0) else [])

/-! ## Reference TOPIX decoder

Written from the specification of the stream layout (level-1 bitmask
byte, then for each set level-1 bit a level-2 bitmask byte, for each set
level-2 bit a level-3 bitmask byte, for each set level-3 bit one delta
byte; positions are implicit in the bitmask structure).  It recovers the
list of (position, delta) pairs and XORs them into the previous line. -/

/-- Read the delta bytes of one level-2 group: ks enumerates the l3 slots
1..8 still to inspect, base is the linear index of slot 1. -/
def topixDecode3 (cl3 base : Nat) : List Nat → List Nat → Option (List (Nat × Nat) × List Nat)
  | [], s => some ([], s)
  | k :: ks, s =>
    if cl3.testBit (8 - k) then
      match s with
      | [] => none
      | d :: s2 =>
        match topixDecode3 cl3 base ks s2 with
        | none => none
        | some (ds, rest) => some ((base + (k - 1), d) :: ds, rest)
    else topixDecode3 cl3 base ks s

/-- Read the level-3 bitmask bytes and deltas of one level-1 group:
js enumerates the l2 slots 1..8 still to inspect. -/
def topixDecode2 (cl2 l1 : Nat) : List Nat → List Nat → Option (List (Nat × Nat) × List Nat)
  | [], s => some ([], s)
  | j :: js, s =>
    if cl2.testBit (8 - j) then
      match s with
      | [] => none
      | c3 :: s2 =>
        match topixDecode3 c3 (64 * l1 + 8 * (j - 1)) [1, 2, 3, 4, 5, 6, 7, 8] s2 with
        | none => none
        | some (ds, rest) =>
          match topixDecode2 cl2 l1 js rest with
          | none => none
          | some (ds2, rest2) => some (ds ++ ds2, rest2)
    else topixDecode2 cl2 l1 js s

/-- Read the level-2 bitmask bytes and their groups: gs enumerates the l1
slots 0..7 still to inspect. -/
def topixDecode1 (cl1 : Nat) : List Nat → List Nat → Option (List (Nat × Nat) × List Nat)
  | [], s => some ([], s)
  | g :: gs, s =>
    if cl1.testBit (7 - g) then
      match s with
      | [] => none
      | c2 :: s2 =>
        match topixDecode2 c2 g [1, 2, 3, 4, 5, 6, 7, 8] s2 with
        | none => none
        | some (ds, rest) =>
          match topixDecode1 cl1 gs rest with
          | none => none
          | some (ds2, rest2) => some (ds ++ ds2, rest2)
    else topixDecode1 cl1 gs s

/-- Decode one compressed line into its (position, delta) pairs; fails if
the stream is empty or not fully consumed. -/
def topixDecodeDeltas : List Nat → Option (List (Nat × Nat))
  | [] => none
  | c1 :: s =>
    match topixDecode1 c1 [0, 1, 2, 3, 4, 5, 6, 7] s with
    | some (ds, []) => some ds
    | _ => none

/-- Delta recorded for linear position i, 0 if none was transmitted. -/
def topixDeltaAt (ds : List (Nat × Nat)) (i : Nat) : Nat :=
  match ds.find? (fun p => p.1 == i) with
  | some p => p.2
  | none => 0

/-- Decode a compressed line against the previous line: XOR every
recovered delta into the previous line. -/
def topixDecodeLine (prev : List Nat) (stream : List Nat) : Option (List Nat) :=
  match topixDecodeDeltas stream with
  | none => none
  | some ds => some ((List.range prev.length).map (fun i => (prev.getD i 0) ^^^ topixDeltaAt ds i))

/-- The (position, delta) pairs the compressor encodes: one pair per
visited cell with non-zero delta, in hierarchy order. -/
def topixAssignments (cur prev : List Nat) : List (Nat × Nat) :=
  (List.range 8).flatMap fun l1 =>
    (List.range 8).flatMap fun j =>
      (List.range 8).filterMap fun k =>
        let c := topixCell cur prev l1 (j + 1) (k + 1)
        if c != 0 then some (64 * l1 + 8 * j + k, c) else none

/-! ## TOPIX accumulator state and flush policy

Per-page state of the TOPIX engine (struct tpcl_compbuf_s and the TOPIX
fields of tpcl_job_t): the previous-line buffer and the bytes accumulated
in the 65535-byte compression buffer (the write cursor is the length of
the accumulated list). -/

structure TopixJobState where
  last_buffer : List Nat
  comp_acc : List Nat
deriving DecidableEq, Repr

/-- State after tpcl_rstartpage_cb or a flush: zeroed previous line,
empty accumulator. -/
def topixInitState (W : Nat) : TopixJobState := ⟨List.replicate W 0, []⟩

/-- buffer_threshold of tpcl_rwriteline_cb:
0xFFFF - (buffer_len + (buffer_len / 8) * 3). -/
def topixBufferThreshold (W : Nat) : Nat := 0xFFFF - (W + (W / 8) * 3)

/-- One TOPIX line of tpcl_rwriteline_cb: compress the line into the
accumulator, then flush (reset both buffers) when the accumulator
exceeds the threshold or this is the last line.  The second component is
the accumulator length right after the compression step, before any
flush: the peak buffer usage of this call. -/
def tpcl_writeline_topix_step (W : Nat) (s : TopixJobState) (line : List Nat) (isLast : Bool) :
    TopixJobState × Nat :=
  let out := tpcl_topix_compress_line line s.last_buffer
  let acc2 := s.comp_acc ++ out
  if acc2.length > topixBufferThreshold W ∨ isLast then (topixInitState W, acc2.length)
  else ({ last_buffer := line, comp_acc := acc2 }, acc2.length)

/-- Peak accumulator usages along a sequence of (line, is-last-line)
WriteLine calls. -/
def topixRunPeaks (W : Nat) (s : TopixJobState) : List (List Nat × Bool) → List Nat
  | [] => []
  | (l, isLast) :: rest =>
    let r := tpcl_writeline_topix_step W s l isLast
    r.2 :: topixRunPeaks W r.1 rest

/-- n pairs of alternating one-byte lines 0x01, 0x00, never the last line
of the page. -/
def topixAltPairs : Nat → List (List Nat × Bool)
  | 0 => []
  | n + 1 => ([1], false) :: ([0], false) :: topixAltPairs n

/-! ## TOPIX flush (tpcl_topix_flush / tpcl_topix_output_buffer) -/

/-- One write to the device connection: a text command fragment
(papplDevicePuts) or raw bytes (papplDeviceWrite). -/
inductive DevWrite where
  | puts (s : String)
  | bytes (bs : List Nat)
deriving DecidableEq, Repr

/-- Zero-padded decimal rendering, as the %0Nd and %0Nu conversions
produce for the non-negative values used here. -/
def padZeros (w n : Nat) : String :=
  let s := toString n
  String.mk (List.replicate (w - s.length) '0') ++ s

/-- The SG command head written by tpcl_topix_flush via snprintf with
format \x7bSG;0000,%05d,%04u,%05u,%d, (x origin is fixed at 0000). -/
def topixSGHeader (yOffset widthDots resolution gmode : Nat) : String :=
  "\x7bSG;0000," ++ padZeros 5 yOffset ++ "," ++ padZeros 4 widthDots ++ ","
    ++ padZeros 5 resolution ++ "," ++ toString gmode ++ ","

/-- tpcl_topix_flush: when the accumulator is empty return 0 without
touching the device or the state; otherwise emit the SG command (head,
2-byte big-endian length, accumulator bytes, closing frame), and reset
the accumulator, cursor and previous-line buffer.  The returned number
is the total count of bytes written; len is the accumulator length cast
to unsigned short. -/
def tpcl_topix_flush (W : Nat) (s : TopixJobState) (yOffset widthDots resolution gmode : Nat) :
    Nat × List DevWrite × TopixJobState :=
  let len := s.comp_acc.length % 65536
  if len = 0 then (0, [], s)
  else
    let cmd := topixSGHeader yOffset widthDots resolution gmode
    (cmd.length + (2 + (len + 3)),
     [DevWrite.puts cmd,
      DevWrite.bytes [len / 256, len % 256],
      DevWrite.bytes (s.comp_acc.take len),
      DevWrite.puts ("|\x7d\n")],
     topixInitState W)

/-! ## Dither matrix builders (src/dithering.c)

The C builders fill a 16 x 16 array; matrices are modelled as functions
and only ever read at indices below 16 (they are addressed with
matrix[y mod 16][x mod 16]). -/

/-- The 2 x 2 Bayer seed matrix. -/
def bayerSeed : Nat → Nat → Nat := fun y x => ([[0, 2], [3, 1]].getD y []).getD x 0

/-- One doubling round of dither_bayer16.  The C loop updates the array
in place, but every iteration (y, x) reads only M[y][x], which no other
iteration of the same round has written, so the round is a pure function
of the pre-round matrix: top-left 4v, top-right 4v+2, bottom-left 4v+3,
bottom-right 4v+1. -/
def bayerDouble (f : Nat → Nat → Nat) (n : Nat) : Nat → Nat → Nat := fun y x =>
  if y < n ∧ x < n then 4 * f y x
  else if y < n ∧ x < 2 * n then 4 * f y (x - n) + 2
  else if y < 2 * n ∧ x < n then 4 * f (y - n) x + 3
  else if y < 2 * n ∧ x < 2 * n then 4 * f (y - n) (x - n) + 1
  else f y x

/-- dither_bayer16: the while loop runs the doubling round for
n = 2, 4, 8 and stops at n = 16. -/
def dither_bayer16 : Nat → Nat → Nat :=
  bayerDouble (bayerDouble (bayerDouble bayerSeed 2) 4) 8

/-- Squared distance from the cell centre (x+0.5, y+0.5) to the tile
centre (8, 8), scaled by 4 to stay integral.  The C computes
dx*dx + dy*dy in single-precision floats, but every value is a multiple
of 0.25 bounded by 112.5, hence exactly representable: the comparison
order of the scaled integers is identical to the float order. -/
def clusteredWeight (x y : Nat) : Int :=
  (2 * (x : Int) - 15) ^ 2 + (2 * (y : Int) - 15) ^ 2

/-- The pts array of dither_clustered16 before sorting, in row-major
fill order (k = 16*y + x). -/
def clusteredPts0 : List (Nat × Nat × Int) :=
  (List.range 16).flatMap (fun y => (List.range 16).map (fun x => (x, y, clusteredWeight x y)))

/-- Body of the double sorting loop: compare the weights at i and j and
swap the entries when the one at j is strictly smaller. -/
def clusteredExch (a : List (Nat × Nat × Int)) (i j : Nat) : List (Nat × Nat × Int) :=
  let pti := a.getD i (0, 0, 0)
  let ptj := a.getD j (0, 0, 0)
  if ptj.2.2 < pti.2.2 then (a.set i ptj).set j pti else a

/-- The exchange sort of dither_clustered16: for i in 0..255, for j in
i+1..255, conditionally swap. -/
def clusteredSorted : List (Nat × Nat × Int) :=
  (List.range 256).foldl
    (fun a i => (List.range (255 - i)).foldl (fun b t => clusteredExch b i (i + 1 + t)) a)
    clusteredPts0

/-- Threshold assignment dither[pts[i].y][pts[i].x] = i on a 16 x 16
grid. -/
def clusteredGrid : List (List Nat) :=
  (List.range 256).foldl
    (fun g i =>
      let p := clusteredSorted.getD i (0, 0, 0)
      g.set p.2.1 ((g.getD p.2.1 []).set p.1 i))
    (List.replicate 16 (List.replicate 16 0))

/-- dither_clustered16 as a matrix function. -/
def dither_clustered16 : Nat → Nat → Nat := fun y x => (clusteredGrid.getD y []).getD x 0

/-- dither_threshold16: constant matrix. -/
def dither_threshold16 (level : Nat) : Nat → Nat → Nat := fun _ _ => level

/-- Row-major flattening of a 16 x 16 matrix. -/
def matrixFlatten (f : Nat → Nat → Nat) : List Nat :=
  (List.range 16).flatMap (fun y => (List.range 16).map (f y))

/-! ## Scanline transformer (tpcl_rwriteline_cb, dither / copy / polarity) -/

/-- CUPS colour space codes used by the driver. -/
def CUPS_CSPACE_K : Nat := 3

/-- CUPS colour space code for the white ink plane. -/
def CUPS_CSPACE_SW : Nat := 18

/-- Failure kinds of the scanline transformer. -/
inductive TpclWlError where
  | unsupportedFormat
  | unsupportedColorSpace
deriving DecidableEq, Repr

/-- The 8-bit dither condition of tpcl_rwriteline_cb:
line[x] >= dither[y & 15][x & 15]. -/
def tpclPixelOn (matrix : Nat → Nat → Nat) (y : Nat) (line : List Nat) (x : Nat) : Bool :=
  decide (matrix (y &&& 15) (x &&& 15) ≤ line.getD x 0)

/-- The 8-bit branch of tpcl_rwriteline_cb: zero buffer_len output bytes,
then for x below cupsBytesPerLine set bit 0x80 >> (x & 7) of output byte
x / 8 when the pixel is above threshold.  W is cupsBytesPerLine (one
byte per pixel at 8 bits), BL is buffer_len.  List.set drops writes at
or beyond BL: in the C these land in the slack of the allocation (which
is W bytes) and are never transmitted. -/
def tpcl_dither_pack (matrix : Nat → Nat → Nat) (y : Nat) (line : List Nat) (W BL : Nat) :
    List Nat :=
  (List.range W).foldl
    (fun buf x =>
      if tpclPixelOn matrix y line x then
        buf.set (x / 8) (buf.getD (x / 8) 0 ||| (0x80 >>> (x &&& 7)))
      else buf)
    (List.replicate BL 0)

/-- Whether pixel x contributes its bit: it must exist (x < W) and be
above threshold. -/
def tpclPackBit (matrix : Nat → Nat → Nat) (y : Nat) (line : List Nat) (W x : Nat) : Bool :=
  decide (x < W) && tpclPixelOn matrix y line x

/-- Eight conditional bit ORs, most significant bit first. -/
def pack8 (c0 c1 c2 c3 c4 c5 c6 c7 : Bool) : Nat :=
  let a0 := if c0 then 0 ||| (0x80 >>> 0) else 0
  let a1 := if c1 then a0 ||| (0x80 >>> 1) else a0
  let a2 := if c2 then a1 ||| (0x80 >>> 2) else a1
  let a3 := if c3 then a2 ||| (0x80 >>> 3) else a2
  let a4 := if c4 then a3 ||| (0x80 >>> 4) else a3
  let a5 := if c5 then a4 ||| (0x80 >>> 5) else a4
  let a6 := if c6 then a5 ||| (0x80 >>> 6) else a5
  let a7 := if c7 then a6 ||| (0x80 >>> 7) else a6
  a7

/-- Value of output byte j after the packing loop. -/
def tpclPackByte (matrix : Nat → Nat → Nat) (y : Nat) (line : List Nat) (W j : Nat) : Nat :=
  pack8 (tpclPackBit matrix y line W (8 * j + 0)) (tpclPackBit matrix y line W (8 * j + 1))
    (tpclPackBit matrix y line W (8 * j + 2)) (tpclPackBit matrix y line W (8 * j + 3))
    (tpclPackBit matrix y line W (8 * j + 4)) (tpclPackBit matrix y line W (8 * j + 5))
    (tpclPackBit matrix y line W (8 * j + 6)) (tpclPackBit matrix y line W (8 * j + 7))

/-- The polarity step of tpcl_rwriteline_cb: SW (1 = white) complements
every output byte, K (1 = black) passes the buffer through, anything
else fails with UnsupportedColorSpace after freeing the job buffers.
The result is (error, buffers released, output buffer). -/
def tpcl_polarity (cspace : Nat) (buffer : List Nat) :
    Option TpclWlError × Bool × List Nat :=
  if cspace = CUPS_CSPACE_SW then (none, false, buffer.map (fun b => b ^^^ 0xFF))
  else if cspace ≠ CUPS_CSPACE_K then (some TpclWlError.unsupportedColorSpace, true, buffer)
  else (none, false, buffer)

/-- The transformation stage of tpcl_rwriteline_cb: dither and pack
8-bit input, copy 1-bit input verbatim, fail with UnsupportedFormat
otherwise (releasing the job buffers), then apply the polarity step. -/
def tpcl_rwriteline_transform (bpp cspace : Nat) (matrix : Nat → Nat → Nat) (y : Nat)
    (line : List Nat) (W BL : Nat) : Option TpclWlError × Bool × List Nat :=
  if bpp = 8 then tpcl_polarity cspace (tpcl_dither_pack matrix y line W BL)
  else if bpp = 1 then tpcl_polarity cspace (line.take W)
  else (some TpclWlError.unsupportedFormat, true, [])

/-! ## Line buffer length (tpcl_rstartjob_cb)

buffer_len = cupsBytesPerLine / cupsBitsPerPixel, where the CUPS raster
header has cupsBytesPerLine = ceil(cupsBitsPerPixel * cupsWidth / 8).
The driver comments state the two supported layouts: 8-bit input is one
byte per pixel, 1-bit input is eight pixels per byte. -/

/-- cupsBytesPerLine for a line of width pixels at bpp bits per pixel. -/
def cups_bytes_per_line (width bpp : Nat) : Nat := (bpp * width + 7) / 8

/-- buffer_len as computed at tpcl-driver.c:1266. -/
def tpcl_buffer_len (width bpp : Nat) : Nat := cups_bytes_per_line width bpp / bpp

/-! ## Nibble-ASCII encoder (nibble branch of tpcl_rwriteline_cb) -/

/-- The two ASCII bytes transmitted for one packed byte: 0x30 with the
high nibble, then 0x30 with the low nibble. -/
def tpcl_nibble_encode_byte (b : Nat) : List Nat :=
  [0x30 ||| ((b >>> 4) &&& 0x0F), 0x30 ||| (b &&& 0x0F)]

/-- Nibble-ASCII encoding of a whole packed line. -/
def tpcl_nibble_encode_line (line : List Nat) : List Nat :=
  line.flatMap tpcl_nibble_encode_byte

/-- Reference decoder: take the low nibbles of the two ASCII bytes and
recombine them, high nibble first. -/
def tpcl_nibble_decode_pair (hi lo : Nat) : Nat :=
  ((hi &&& 0x0F) <<< 4) ||| (lo &&& 0x0F)

/-! ## Label geometry state tracker (src/tpcl-state.c)

The persisted store is modelled as an optional file whose four integer
fields may each be missing (a missing or unparsed field keeps the
sscanf default -1 and fails validation, like any malformed record). -/

/-- The private state record of tpcl-state.c. -/
structure tpcl_printer_state_t where
  last_print_width : Int
  last_print_height : Int
  last_label_gap : Int
  last_roll_margin : Int
deriving DecidableEq, Repr

/-- Contents of a state file: each field is present or missing. -/
structure TpclStateFileContent where
  width_field : Option Int
  height_field : Option Int
  gap_field : Option Int
  margin_field : Option Int
deriving DecidableEq, Repr

/-- load_state_from_file: no file is a miss; a file with a missing or
negative field is incomplete and ignored; otherwise all four fields are
loaded. -/
def load_state_from_file (file : Option TpclStateFileContent) : Option tpcl_printer_state_t :=
  match file with
  | none => none
  | some f =>
    let w := f.width_field.getD (-1)
    let h := f.height_field.getD (-1)
    let g := f.gap_field.getD (-1)
    let m := f.margin_field.getD (-1)
    if w < 0 ∨ h < 0 ∨ g < 0 ∨ m < 0 then none
    else some ⟨w, h, g, m⟩

/-- save_state_to_file writes all four fields. -/
def save_state_to_file (w h g m : Int) : TpclStateFileContent :=
  ⟨some w, some h, some g, some m⟩

/-- state_has_changed on a loaded (hence initialized) record. -/
def state_has_changed (st : tpcl_printer_state_t) (w h g m : Int) : Bool :=
  st.last_print_width != w || st.last_print_height != h ||
    st.last_label_gap != g || st.last_roll_margin != m

/-- tpcl_state_check_and_update: load the persisted record; a miss
reports changed and writes the new record; a hit compares and writes
only when a field differs, leaving the store untouched otherwise.
Returns (changed, store after the call). -/
def tpcl_state_check_and_update (store : Option TpclStateFileContent) (w h g m : Int) :
    Bool × Option TpclStateFileContent :=
  match load_state_from_file store with
  | none => (true, some (save_state_to_file w h g m))
  | some st =>
    if state_has_changed st w h g m then (true, some (save_state_to_file w h g m))
    else (false, store)

/-! ## Concrete inputs used by counterexamples and failing-input
evaluations -/

/-- A 513-byte line whose last byte differs from the previous line. -/
def c1cur : List Nat := List.replicate 512 0 ++ [1]

/-- The all-zero 513-byte previous line. -/
def c1prev : List Nat := List.replicate 513 0

/-- The eight bit positions of one mask byte. -/
def mask8 (b0 b1 b2 b3 b4 b5 b6 b7 : Bool) : Nat :=
  let a0 := if b0 then 0 ||| (1 <<< 7) else 0
  let a1 := if b1 then a0 ||| (1 <<< 6) else a0
  let a2 := if b2 then a1 ||| (1 <<< 5) else a1
  let a3 := if b3 then a2 ||| (1 <<< 4) else a2
  let a4 := if b4 then a3 ||| (1 <<< 3) else a3
  let a5 := if b5 then a4 ||| (1 <<< 2) else a4
  let a6 := if b6 then a5 ||| (1 <<< 1) else a5
  let a7 := if b7 then a6 ||| (1 <<< 0) else a6
  a7

/-- The grid position (x, y) of one pts entry. -/
def clusteredPos (p : Nat × Nat × Int) : Nat × Nat := (p.1, p.2.1)

/-- All cells of a 16 x 16 tile in row-major order. -/
def cells16 : List (Nat × Nat) :=
  (List.range 16).flatMap (fun y => (List.range 16).map (fun x => (x, y)))

/-- Position written by step i of the threshold-assignment loop. -/
def clusteredPosAt (i : Nat) : Nat × Nat :=
  clusteredPos (clusteredSorted.getD i (0, 0, 0))

/-- The grid after the first n threshold assignments. -/
def clusteredGridN (n : Nat) : List (List Nat) :=
  (List.range n).foldl
    (fun g i =>
      let p := clusteredSorted.getD i (0, 0, 0)
      g.set p.2.1 ((g.getD p.2.1 []).set p.1 i))
    (List.replicate 16 (List.replicate 16 0))

/-! ## Bitmask lemmas -/

theorem topixMask_eq_mask8 (g : Nat → Bool) :
    topixMask g = mask8 (g 0) (g 1) (g 2) (g 3) (g 4) (g 5) (g 6) (g 7) := rfl

theorem mask8_testBit :
    ∀ b0 b1 b2 b3 b4 b5 b6 b7 : Bool,
      (mask8 b0 b1 b2 b3 b4 b5 b6 b7).testBit 7 = b0 ∧
      (mask8 b0 b1 b2 b3 b4 b5 b6 b7).testBit 6 = b1 ∧
      (mask8 b0 b1 b2 b3 b4 b5 b6 b7).testBit 5 = b2 ∧
      (mask8 b0 b1 b2 b3 b4 b5 b6 b7).testBit 4 = b3 ∧
      (mask8 b0 b1 b2 b3 b4 b5 b6 b7).testBit 3 = b4 ∧
      (mask8 b0 b1 b2 b3 b4 b5 b6 b7).testBit 2 = b5 ∧
      (mask8 b0 b1 b2 b3 b4 b5 b6 b7).testBit 1 = b6 ∧
      (mask8 b0 b1 b2 b3 b4 b5 b6 b7).testBit 0 = b7 := by decide

theorem mask8_eq_zero_bool :
    ∀ b0 b1 b2 b3 b4 b5 b6 b7 : Bool,
      (mask8 b0 b1 b2 b3 b4 b5 b6 b7 == 0)
        = (!b0 && !b1 && !b2 && !b3 && !b4 && !b5 && !b6 && !b7) := by decide

theorem mask8_eq_zero (b0 b1 b2 b3 b4 b5 b6 b7 : Bool) :
    mask8 b0 b1 b2 b3 b4 b5 b6 b7 = 0 ↔
      b0 = false ∧ b1 = false ∧ b2 = false ∧ b3 = false ∧
      b4 = false ∧ b5 = false ∧ b6 = false ∧ b7 = false := by
  have hb := mask8_eq_zero_bool b0 b1 b2 b3 b4 b5 b6 b7
  constructor
  · intro h
    rw [h] at hb
    simp only [beq_self_eq_true] at hb
    have := hb.symm
    simp only [Bool.and_eq_true, Bool.not_eq_true'] at this
    tauto
  · rintro ⟨h0, h1, h2, h3, h4, h5, h6, h7⟩
    subst h0 h1 h2 h3 h4 h5 h6 h7
    simpa using hb

theorem topixMask_testBit (g : Nat → Bool) (k : Nat) (hk : k < 8) :
    (topixMask g).testBit (7 - k) = g k := by
  have h := mask8_testBit (g 0) (g 1) (g 2) (g 3) (g 4) (g 5) (g 6) (g 7)
  rw [topixMask_eq_mask8]
  interval_cases k
  · exact h.1
  · exact h.2.1
  · exact h.2.2.1
  · exact h.2.2.2.1
  · exact h.2.2.2.2.1
  · exact h.2.2.2.2.2.1
  · exact h.2.2.2.2.2.2.1
  · exact h.2.2.2.2.2.2.2

theorem topixMask_eq_zero (g : Nat → Bool) :
    topixMask g = 0 ↔ ∀ k, k < 8 → g k = false := by
  rw [topixMask_eq_mask8, mask8_eq_zero]
  constructor
  · rintro ⟨h0, h1, h2, h3, h4, h5, h6, h7⟩ k hk
    interval_cases k <;> assumption
  · intro h
    exact ⟨h 0 (by omega), h 1 (by omega), h 2 (by omega), h 3 (by omega),
      h 4 (by omega), h 5 (by omega), h 6 (by omega), h 7 (by omega)⟩

/-! ## Zero propagation through the hierarchy -/

theorem topixCl3_eq_zero {cur prev : List Nat} {l1 j : Nat}
    (h : topixCl3 cur prev l1 j = 0) :
    ∀ k, 1 ≤ k → k ≤ 8 → topixCell cur prev l1 j k = 0 := by
  intro k h1 h8
  have hz := (topixMask_eq_zero _).mp h (k - 1) (by omega)
  have hk : k - 1 + 1 = k := by omega
  rw [hk] at hz
  simpa using hz

theorem topixCl2_eq_zero {cur prev : List Nat} {l1 : Nat}
    (h : topixCl2 cur prev l1 = 0) :
    ∀ j, 1 ≤ j → j ≤ 8 → topixCl3 cur prev l1 j = 0 := by
  intro j h1 h8
  have hz := (topixMask_eq_zero _).mp h (j - 1) (by omega)
  have hj : j - 1 + 1 = j := by omega
  rw [hj] at hz
  simpa using hz

theorem topixCl1_eq_zero {cur prev : List Nat}
    (h : topixCl1 cur prev = 0) :
    ∀ l1, l1 < 8 → topixCl2 cur prev l1 = 0 := by
  intro l1 h8
  have hz := (topixMask_eq_zero _).mp h l1 h8
  simpa using hz

/-! ## Bit lookups through the hierarchy -/

theorem topixCl3_testBit (cur prev : List Nat) (l1 j k : Nat) (h1 : 1 ≤ k) (h8 : k ≤ 8) :
    (topixCl3 cur prev l1 j).testBit (8 - k) = (topixCell cur prev l1 j k != 0) := by
  have h : (8 : Nat) - k = 7 - (k - 1) := by omega
  have hk : k - 1 + 1 = k := by omega
  rw [h, topixCl3, topixMask_testBit _ _ (by omega), hk]

theorem topixCl2_testBit (cur prev : List Nat) (l1 j : Nat) (h1 : 1 ≤ j) (h8 : j ≤ 8) :
    (topixCl2 cur prev l1).testBit (8 - j) = (topixCl3 cur prev l1 j != 0) := by
  have h : (8 : Nat) - j = 7 - (j - 1) := by omega
  have hj : j - 1 + 1 = j := by omega
  rw [h, topixCl2, topixMask_testBit _ _ (by omega), hj]

theorem topixCl1_testBit (cur prev : List Nat) (l1 : Nat) (h8 : l1 < 8) :
    (topixCl1 cur prev).testBit (7 - l1) = (topixCl2 cur prev l1 != 0) := by
  rw [topixCl1, topixMask_testBit _ _ h8]

/-! ## Decoder inversion, level by level -/

theorem list8_map_range (f : Nat → Nat) :
    [1, 2, 3, 4, 5, 6, 7, 8].map f = (List.range 8).map (fun k => f (k + 1)) := rfl

theorem list8_filterMap_range (f : Nat → Option (Nat × Nat)) :
    [1, 2, 3, 4, 5, 6, 7, 8].filterMap f
      = (List.range 8).filterMap (fun k => f (k + 1)) := rfl

theorem list8_flatMap_range (f : Nat → List Nat) :
    [1, 2, 3, 4, 5, 6, 7, 8].flatMap f = (List.range 8).flatMap (fun k => f (k + 1)) := rfl

theorem range8_eq : List.range 8 = [0, 1, 2, 3, 4, 5, 6, 7] := rfl

theorem topixDecode3_spec (cur prev : List Nat) (l1 j : Nat) (rest : List Nat) :
    ∀ ks : List Nat, (∀ k ∈ ks, 1 ≤ k ∧ k ≤ 8) →
    topixDecode3 (topixCl3 cur prev l1 (j + 1)) (64 * l1 + 8 * j) ks
        (((ks.map fun k => topixCell cur prev l1 (j + 1) k).filter (fun b => b != 0)) ++ rest)
      = some ((ks.filterMap fun k =>
          if topixCell cur prev l1 (j + 1) k != 0 then
            some (64 * l1 + 8 * j + (k - 1), topixCell cur prev l1 (j + 1) k)
          else none), rest) := by
  intro ks
  induction ks with
  | nil => intro _; simp [topixDecode3]
  | cons k ks ih =>
    intro hks
    have hk := hks k (by simp)
    have hbit : (topixCl3 cur prev l1 (j + 1)).testBit (8 - k)
        = (topixCell cur prev l1 (j + 1) k != 0) :=
      topixCl3_testBit cur prev l1 (j + 1) k hk.1 hk.2
    have ih2 := ih (fun x hx => hks x (by simp [hx]))
    cases hc : topixCell cur prev l1 (j + 1) k != 0 with
    | true =>
      simp only [topixDecode3, hbit, hc, if_true, List.map_cons, List.filter_cons, hc,
        List.cons_append, List.filterMap_cons, ih2]
    | false =>
      simp only [topixDecode3, hbit, hc, if_false, Bool.false_eq_true, List.map_cons,
        List.filter_cons, hc, List.filterMap_cons, ih2]

theorem topixDecode2_spec (cur prev : List Nat) (l1 : Nat) (rest : List Nat) :
    ∀ js : List Nat, (∀ j ∈ js, 1 ≤ j ∧ j ≤ 8) →
    topixDecode2 (topixCl2 cur prev l1) l1 js
        ((js.flatMap fun j =>
            ((topixCl3 cur prev l1 j
                :: (List.range 8).map fun k => topixCell cur prev l1 j (k + 1)).filter
              (fun b => b != 0))) ++ rest)
      = some ((js.flatMap fun j =>
          (List.range 8).filterMap fun k =>
            if topixCell cur prev l1 j (k + 1) != 0 then
              some (64 * l1 + 8 * (j - 1) + k, topixCell cur prev l1 j (k + 1))
            else none), rest) := by
  intro js
  induction js with
  | nil => intro _; simp [topixDecode2]
  | cons j js ih =>
    intro hjs
    have hj := hjs j (by simp)
    have hj1 : j - 1 + 1 = j := by omega
    have hbit : (topixCl2 cur prev l1).testBit (8 - j) = (topixCl3 cur prev l1 j != 0) :=
      topixCl2_testBit cur prev l1 j hj.1 hj.2
    have ih2 := ih (fun x hx => hjs x (by simp [hx]))
    cases hc : topixCl3 cur prev l1 j != 0 with
    | true =>
      have h3 := topixDecode3_spec cur prev l1 (j - 1)
        ((js.flatMap fun j2 =>
            ((topixCl3 cur prev l1 j2
                :: (List.range 8).map fun k => topixCell cur prev l1 j2 (k + 1)).filter
              (fun b => b != 0))) ++ rest)
        [1, 2, 3, 4, 5, 6, 7, 8] (by decide)
      rw [hj1, list8_map_range, list8_filterMap_range] at h3
      simp only [Nat.add_sub_cancel] at h3
      have hhead :
          ((topixCl3 cur prev l1 j
              :: (List.range 8).map fun k => topixCell cur prev l1 j (k + 1)).filter
            (fun b => b != 0))
          = topixCl3 cur prev l1 j
              :: (((List.range 8).map fun k => topixCell cur prev l1 j (k + 1)).filter
                   (fun b => b != 0)) := by
        rw [List.filter_cons]
        simp [hc]
      simp only [List.flatMap_cons, hhead, List.cons_append, List.append_assoc,
        topixDecode2, hbit, hc, if_true, h3, ih2]
    | false =>
      have hc30 : topixCl3 cur prev l1 j = 0 := by simpa using hc
      have hcells : ∀ k, k < 8 → topixCell cur prev l1 j (k + 1) = 0 := fun k hk =>
        topixCl3_eq_zero hc30 (k + 1) (by omega) (by omega)
      have hfilter :
          ((topixCl3 cur prev l1 j
              :: (List.range 8).map fun k => topixCell cur prev l1 j (k + 1)).filter
            (fun b => b != 0)) = [] := by
        rw [List.filter_cons]
        simp only [hc, if_false, Bool.false_eq_true, ite_false]
        rw [List.filter_eq_nil_iff]
        intro a ha
        rcases List.mem_map.mp ha with ⟨k, hk, rfl⟩
        simp [hcells k (List.mem_range.mp hk)]
      have hassign :
          ((List.range 8).filterMap fun k =>
            if topixCell cur prev l1 j (k + 1) != 0 then
              some (64 * l1 + 8 * (j - 1) + k, topixCell cur prev l1 j (k + 1))
            else none) = [] := by
        rw [List.filterMap_eq_nil_iff]
        intro k hk
        simp [hcells k (List.mem_range.mp hk)]
      simp only [topixDecode2, hbit, hc, if_false, Bool.false_eq_true, List.flatMap_cons,
        hfilter, hassign, List.nil_append, ih2]

theorem topixDecode1_spec (cur prev : List Nat) (rest : List Nat) :
    ∀ gs : List Nat, (∀ g ∈ gs, g < 8) →
    topixDecode1 (topixCl1 cur prev) gs
        ((gs.flatMap fun l1 => (topixBlock cur prev l1).filter (fun b => b != 0)) ++ rest)
      = some ((gs.flatMap fun l1 =>
          (List.range 8).flatMap fun j =>
            (List.range 8).filterMap fun k =>
              if topixCell cur prev l1 (j + 1) (k + 1) != 0 then
                some (64 * l1 + 8 * j + k, topixCell cur prev l1 (j + 1) (k + 1))
              else none), rest) := by
  intro gs
  induction gs with
  | nil => intro _; simp [topixDecode1]
  | cons g gs ih =>
    intro hgs
    have hg := hgs g (by simp)
    have hbit : (topixCl1 cur prev).testBit (7 - g) = (topixCl2 cur prev g != 0) :=
      topixCl1_testBit cur prev g hg
    have ih2 := ih (fun x hx => hgs x (by simp [hx]))
    have hrepl : (List.replicate 8 0).filter (fun b => b != 0) = ([] : List Nat) := by decide
    cases hc : topixCl2 cur prev g != 0 with
    | true =>
      have hhead :
          (topixBlock cur prev g).filter (fun b => b != 0)
            = topixCl2 cur prev g
                :: ((List.range 8).flatMap fun j =>
                     ((topixCl3 cur prev g (j + 1)
                         :: (List.range 8).map fun k => topixCell cur prev g (j + 1) (k + 1)).filter
                       (fun b => b != 0))) := by
        rw [topixBlock, List.filter_append, List.filter_cons]
        simp only [hc, if_true]
        rw [hrepl, List.filter_flatMap]
        rfl
      have h2 := topixDecode2_spec cur prev g
        ((gs.flatMap fun l1 => (topixBlock cur prev l1).filter (fun b => b != 0)) ++ rest)
        [1, 2, 3, 4, 5, 6, 7, 8] (by decide)
      rw [list8_flatMap_range] at h2
      have h2b := h2
      rw [show ([1, 2, 3, 4, 5, 6, 7, 8].flatMap fun j =>
            (List.range 8).filterMap fun k =>
              if topixCell cur prev g j (k + 1) != 0 then
                some (64 * g + 8 * (j - 1) + k, topixCell cur prev g j (k + 1))
              else none)
          = ((List.range 8).flatMap fun j =>
              (List.range 8).filterMap fun k =>
                if topixCell cur prev g (j + 1) (k + 1) != 0 then
                  some (64 * g + 8 * (j + 1 - 1) + k, topixCell cur prev g (j + 1) (k + 1))
                else none) from rfl] at h2b
      simp only [Nat.add_sub_cancel] at h2b
      simp only [List.flatMap_cons, hhead, List.cons_append, List.append_assoc,
        topixDecode1, hbit, hc, if_true, h2b, ih2]
    | false =>
      have hc20 : topixCl2 cur prev g = 0 := by simpa using hc
      have hcl3 : ∀ j, j < 8 → topixCl3 cur prev g (j + 1) = 0 := fun j hj =>
        topixCl2_eq_zero hc20 (j + 1) (by omega) (by omega)
      have hcells : ∀ j, j < 8 → ∀ k, k < 8 → topixCell cur prev g (j + 1) (k + 1) = 0 :=
        fun j hj k hk => topixCl3_eq_zero (hcl3 j hj) (k + 1) (by omega) (by omega)
      have hhead : (topixBlock cur prev g).filter (fun b => b != 0) = [] := by
        rw [topixBlock, List.filter_append, List.filter_cons]
        simp only [hc, if_false, Bool.false_eq_true, ite_false]
        rw [hrepl, List.filter_flatMap]
        simp only [List.nil_append]
        rw [List.flatMap_eq_nil_iff]
        intro j hj
        rw [List.filter_cons]
        have hj8 := List.mem_range.mp hj
        simp only [hcl3 j hj8, bne_self_eq_false, Bool.false_eq_true, ite_false]
        rw [List.filter_eq_nil_iff]
        intro a ha
        rcases List.mem_map.mp ha with ⟨k, hk, rfl⟩
        simp [hcells j hj8 k (List.mem_range.mp hk)]
      have hassign :
          ((List.range 8).flatMap fun j =>
            (List.range 8).filterMap fun k =>
              if topixCell cur prev g (j + 1) (k + 1) != 0 then
                some (64 * g + 8 * j + k, topixCell cur prev g (j + 1) (k + 1))
              else none) = [] := by
        rw [List.flatMap_eq_nil_iff]
        intro j hj
        rw [List.filterMap_eq_nil_iff]
        intro k hk
        simp [hcells j (List.mem_range.mp hj) k (List.mem_range.mp hk)]
      simp only [List.flatMap_cons, hhead, hassign, List.nil_append,
        topixDecode1, hbit, hc, if_false, Bool.false_eq_true, ih2]

theorem topixAssignments_nil (cur prev : List Nat) (h : topixCl1 cur prev = 0) :
    topixAssignments cur prev = [] := by
  rw [topixAssignments, List.flatMap_eq_nil_iff]
  intro l1 hl1
  rw [List.flatMap_eq_nil_iff]
  intro j hj
  rw [List.filterMap_eq_nil_iff]
  intro k hk
  have hj8 := List.mem_range.mp hj
  have hk8 := List.mem_range.mp hk
  have hz := topixCl3_eq_zero
    (topixCl2_eq_zero (topixCl1_eq_zero h l1 (List.mem_range.mp hl1)) (j + 1) (by omega)
      (by omega))
    (k + 1) (by omega) (by omega)
  simp [hz]

theorem topixDecodeDeltas_compress (cur prev : List Nat) :
    topixDecodeDeltas (tpcl_topix_compress_line cur prev) = some (topixAssignments cur prev) := by
  by_cases h1 : 0 < topixCl1 cur prev
  · have hd := topixDecode1_spec cur prev [] (List.range 8)
      (fun g hg => List.mem_range.mp hg)
    rw [List.append_nil] at hd
    have hcomp : tpcl_topix_compress_line cur prev
        = topixCl1 cur prev
          :: ((List.range 8).flatMap fun l1 =>
               (topixBlock cur prev l1).filter (fun b => b != 0)) := by
      rw [tpcl_topix_compress_line]
      simp only [h1, if_true]
      rw [topixScratch, List.filter_flatMap]
    rw [hcomp]
    simp only [topixDecodeDeltas]
    rw [range8_eq] at hd ⊢
    rw [hd]
    rfl
  · have h0 : topixCl1 cur prev = 0 := by omega
    have hcomp : tpcl_topix_compress_line cur prev = [0] := by
      rw [tpcl_topix_compress_line]
      simp [h0]
    rw [hcomp, topixAssignments_nil cur prev h0]
    decide

theorem topixAssignments_mem (cur prev : List Nat) (p d : Nat) :
    (p, d) ∈ topixAssignments cur prev ↔
      ∃ l1, l1 < 8 ∧ ∃ j, j < 8 ∧ ∃ k, k < 8 ∧ p = 64 * l1 + 8 * j + k ∧
        d = topixCell cur prev l1 (j + 1) (k + 1) ∧ d ≠ 0 := by
  simp only [topixAssignments, List.mem_flatMap, List.mem_filterMap, List.mem_range]
  constructor
  · rintro ⟨l1, hl1, ⟨j, hj, ⟨k, hk, hif⟩⟩⟩
    by_cases hc : topixCell cur prev l1 (j + 1) (k + 1) != 0
    · rw [if_pos hc] at hif
      rcases Option.some.inj hif with h
      rcases Prod.mk.injEq .. ▸ h with ⟨hp, hd⟩
      exact ⟨l1, hl1, j, hj, k, hk, hp.symm, hd.symm, by
        subst hd; simpa using hc⟩
    · rw [if_neg hc] at hif
      exact absurd hif (by simp)
  · rintro ⟨l1, hl1, j, hj, k, hk, hp, hd, hne⟩
    refine ⟨l1, hl1, j, hj, k, hk, ?_⟩
    have hc : (topixCell cur prev l1 (j + 1) (k + 1) != 0) = true := by
      subst hd
      simpa using hne
    rw [if_pos hc]
    subst hp hd
    rfl

theorem topixCell_eq (cur prev : List Nat) (l1 j k : Nat)
    (h : 64 * l1 + 8 * j + k < cur.length) :
    topixCell cur prev l1 (j + 1) (k + 1)
      = (cur.getD (64 * l1 + 8 * j + k) 0) ^^^ (prev.getD (64 * l1 + 8 * j + k) 0) := by
  show (if 64 * l1 + 8 * j + k < cur.length then
          (cur.getD (64 * l1 + 8 * j + k) 0) ^^^ (prev.getD (64 * l1 + 8 * j + k) 0)
        else 0) = _
  rw [if_pos h]

theorem topixDeltaAt_assignments (cur prev : List Nat) (hw : cur.length ≤ 512)
    (i : Nat) (hi : i < cur.length) :
    topixDeltaAt (topixAssignments cur prev) i = (cur.getD i 0) ^^^ (prev.getD i 0) := by
  rw [topixDeltaAt]
  cases hf : (topixAssignments cur prev).find? (fun p => p.1 == i) with
  | some p =>
    have hp := List.find?_some hf
    have hmem := List.mem_of_find?_eq_some hf
    rcases p with ⟨p1, d⟩
    have hp1 : p1 = i := by simpa using hp
    subst hp1
    rw [topixAssignments_mem] at hmem
    obtain ⟨l1, hl1, j, hj, k, hk, hpos, hd, hdne⟩ := hmem
    show d = _
    rw [hd, topixCell_eq cur prev l1 j k (hpos ▸ hi), ← hpos]
  | none =>
    show (0 : Nat) = _
    rw [List.find?_eq_none] at hf
    by_contra hne
    have hne2 : (cur.getD i 0) ^^^ (prev.getD i 0) ≠ 0 := fun h => hne h.symm
    have hidx : 64 * (i / 64) + 8 * (i % 64 / 8) + i % 8 = i := by omega
    have hcell : topixCell cur prev (i / 64) (i % 64 / 8 + 1) (i % 8 + 1)
        = (cur.getD i 0) ^^^ (prev.getD i 0) := by
      rw [topixCell_eq cur prev _ _ _ (by rw [hidx]; exact hi), hidx]
    have hmem : ((i : Nat), (cur.getD i 0) ^^^ (prev.getD i 0)) ∈ topixAssignments cur prev := by
      rw [topixAssignments_mem]
      exact ⟨i / 64, by omega, i % 64 / 8, by omega, i % 8, by omega, by omega,
        hcell.symm, hne2⟩
    exact absurd (by simp : ((((i : Nat), (cur.getD i 0) ^^^ (prev.getD i 0))).1 == i) = true)
      (hf _ hmem)

theorem c1cur_getD (i : Nat) (hi : i < 512) : c1cur.getD i 0 = 0 := by
  rw [c1cur, List.getD_eq_getElem?_getD, List.getElem?_append, List.length_replicate,
    if_pos hi, List.getElem?_replicate, if_pos hi]
  rfl

theorem c1prev_getD (i : Nat) : c1prev.getD i 0 = 0 := by
  rw [c1prev, List.getD_eq_getElem?_getD, List.getElem?_replicate]
  by_cases hi : i < 513
  · rw [if_pos hi]
    rfl
  · rw [if_neg hi]
    rfl

theorem c1_compress_eq : tpcl_topix_compress_line c1cur c1prev = [0] := by
  have hcl1 : topixCl1 c1cur c1prev = 0 := by
    apply (topixMask_eq_zero _).mpr
    intro l1 hl1
    suffices h : topixCl2 c1cur c1prev l1 = 0 by simp [h]
    apply (topixMask_eq_zero _).mpr
    intro j hj
    suffices h : topixCl3 c1cur c1prev l1 (j + 1) = 0 by simp [h]
    apply (topixMask_eq_zero _).mpr
    intro k hk
    suffices h : topixCell c1cur c1prev l1 (j + 1) (k + 1) = 0 by simp [h]
    rw [topixCell_eq c1cur c1prev l1 j k
      (by rw [c1cur, List.length_append, List.length_replicate]; simp; omega)]
    rw [c1cur_getD _ (by omega), c1prev_getD]
    rfl
  simp only [tpcl_topix_compress_line, hcl1, gt_iff_lt, lt_self_iff_false, if_false]

set_option maxRecDepth 10000 in
/-- Claim C1 (counterexample): the round-trip fails as stated for a line
length above 512 — at width 513, with an all-zero previous line and a
current line whose last byte is 1, the compressor emits only the byte
0x00 (the loops stop at linear index 512), so the reference decoder
reproduces the previous line, not the current one. -/
theorem c1_roundtrip_counterexample :
    topixDecodeLine c1prev (tpcl_topix_compress_line c1cur c1prev) ≠ some c1cur := by
  rw [c1_compress_eq]
  decide

/-- Claim C1 (amended): for every line length up to 512 (the capacity of
the 8 x 8 x 8 hierarchy) and every pair of byte lines of that length,
decoding the bytes appended by the compressor — level-1 bitmask byte,
then implicit-position level-2/level-3 bitmask bytes and delta bytes —
and XORing the recovered deltas into the previous line reproduces the
current line exactly. -/
theorem tpcl_topix_roundtrip (cur prev : List Nat)
    (hlen : prev.length = cur.length) (hw : cur.length ≤ 512)
    (hcur : ∀ b ∈ cur, b < 256) (hprev : ∀ b ∈ prev, b < 256) :
    topixDecodeLine prev (tpcl_topix_compress_line cur prev) = some cur := by
  rw [topixDecodeLine, topixDecodeDeltas_compress]
  refine congrArg some (List.ext_getElem ?_ ?_)
  · simp [hlen]
  · intro i h1 h2
    simp only [List.getElem_map, List.getElem_range]
    have hi : i < cur.length := by simpa [hlen] using h2
    rw [topixDeltaAt_assignments cur prev hw i hi]
    rw [List.getD_eq_getElem prev 0 (by omega), List.getD_eq_getElem cur 0 hi]
    rw [Nat.xor_comm cur[i] prev[i], ← Nat.xor_assoc, Nat.xor_self, Nat.zero_xor]

/-- Claim C1 (witness): a concrete 3-byte round-trip instance. -/
theorem tpcl_topix_roundtrip_witness :
    topixDecodeLine [0, 15, 0] (tpcl_topix_compress_line [18, 255, 0] [0, 15, 0])
      = some [18, 255, 0] :=
  tpcl_topix_roundtrip [18, 255, 0] [0, 15, 0] (by decide) (by decide) (by decide) (by decide)

theorem topixCl1_self (line : List Nat) : topixCl1 line line = 0 := by
  have hcell : ∀ l1 l2 l3, topixCell line line l1 l2 l3 = 0 := by
    intro l1 l2 l3
    simp [topixCell]
  have hcl3 : ∀ l1 l2, topixCl3 line line l1 l2 = 0 := by
    intro l1 l2
    exact (topixMask_eq_zero _).mpr (fun k _ => by simp [hcell])
  have hcl2 : ∀ l1, topixCl2 line line l1 = 0 := by
    intro l1
    exact (topixMask_eq_zero _).mpr (fun k _ => by simp [hcl3])
  exact (topixMask_eq_zero _).mpr (fun k _ => by simp [hcl2])

/-- Claim C3: for every line length and line content, compressing a line
equal to the stored previous line appends exactly the single byte 0x00;
in particular, since every compression step stores its input as the new
previous line, a WriteLine call whose line equals the previous one grows
the accumulator by exactly one byte. -/
theorem tpcl_topix_compress_identical (line acc : List Nat) (isLast : Bool) (W : Nat) :
    tpcl_topix_compress_line line line = [0x00]
    ∧ (tpcl_writeline_topix_step W ⟨line, acc⟩ line isLast).2 = acc.length + 1 := by
  have h1 : tpcl_topix_compress_line line line = [0x00] := by
    rw [tpcl_topix_compress_line]
    simp [topixCl1_self]
  refine ⟨h1, ?_⟩
  rw [tpcl_writeline_topix_step]
  simp only [h1]
  split <;> simp

/-! ## Clustered dither matrix: the exchange sort permutes pts, and the
rank assignment therefore writes each threshold 0..255 exactly once. -/

theorem getD_cons_set_perm {α : Type} (d : α) :
    ∀ (t : List α) (j : Nat) (x : α), j < t.length →
      List.Perm ((t.getD j d) :: t.set j x) (x :: t) := by
  intro t
  induction t with
  | nil =>
    intro j x hj
    simp at hj
  | cons c t2 ih =>
    intro j x hj
    cases j with
    | zero =>
      simp only [List.getD_cons_zero, List.set_cons_zero]
      exact List.Perm.swap x c t2
    | succ j2 =>
      simp only [List.getD_cons_succ, List.set_cons_succ]
      exact (List.Perm.swap c (t2.getD j2 d) (t2.set j2 x)).trans
        ((List.Perm.cons c (ih j2 x (by simpa using hj))).trans (List.Perm.swap x c t2))

theorem set_set_swap_perm {α : Type} (d : α) :
    ∀ (a : List α) (i j : Nat), i < j → j < a.length →
      List.Perm ((a.set i (a.getD j d)).set j (a.getD i d)) a := by
  intro a
  induction a with
  | nil =>
    intro i j hij hj
    simp at hj
  | cons h t ih =>
    intro i j hij hj
    cases i with
    | zero =>
      cases j with
      | zero => omega
      | succ j2 =>
        simp only [List.getD_cons_succ, List.getD_cons_zero, List.set_cons_zero,
          List.set_cons_succ]
        exact getD_cons_set_perm d t j2 h (by simpa using hj)
    | succ i2 =>
      cases j with
      | zero => omega
      | succ j2 =>
        simp only [List.getD_cons_succ, List.set_cons_succ]
        exact List.Perm.cons h (ih i2 j2 (by omega) (by simpa using hj))

theorem clusteredExch_perm (a : List (Nat × Nat × Int)) (i j : Nat) (hij : i < j)
    (hj : j < a.length) : List.Perm (clusteredExch a i j) a := by
  simp only [clusteredExch]
  split
  · exact set_set_swap_perm (0, 0, 0) a i j hij hj
  · exact List.Perm.refl a

theorem clusteredExch_length (a : List (Nat × Nat × Int)) (i j : Nat) :
    (clusteredExch a i j).length = a.length := by
  simp only [clusteredExch]
  split <;> simp

theorem clustered_inner_fold_perm (i : Nat) :
    ∀ (ts : List Nat) (a : List (Nat × Nat × Int)), a.length = 256 →
      (∀ t ∈ ts, i + 1 + t < 256) →
      List.Perm (ts.foldl (fun b t => clusteredExch b i (i + 1 + t)) a) a := by
  intro ts
  induction ts with
  | nil =>
    intro a _ _
    exact List.Perm.refl a
  | cons t ts ih =>
    intro a ha hts
    simp only [List.foldl_cons]
    have hb := hts t (by simp)
    have h1 : List.Perm (clusteredExch a i (i + 1 + t)) a :=
      clusteredExch_perm a i (i + 1 + t) (by omega) (by omega)
    have h2 := ih (clusteredExch a i (i + 1 + t))
      (by rw [clusteredExch_length]; exact ha)
      (fun t2 ht2 => hts t2 (by simp [ht2]))
    exact h2.trans h1

theorem clustered_outer_fold_perm :
    ∀ (gs : List Nat) (a : List (Nat × Nat × Int)), a.length = 256 →
      List.Perm
        (gs.foldl (fun a2 i => (List.range (255 - i)).foldl
          (fun b t => clusteredExch b i (i + 1 + t)) a2) a) a := by
  intro gs
  induction gs with
  | nil =>
    intro a _
    exact List.Perm.refl a
  | cons g gs ih =>
    intro a ha
    simp only [List.foldl_cons]
    have h1 : List.Perm ((List.range (255 - g)).foldl
        (fun b t => clusteredExch b g (g + 1 + t)) a) a :=
      clustered_inner_fold_perm g (List.range (255 - g)) a ha
        (fun t ht => by have := List.mem_range.mp ht; omega)
    have h2 := ih ((List.range (255 - g)).foldl
        (fun b t => clusteredExch b g (g + 1 + t)) a) (h1.length_eq.trans ha)
    exact h2.trans h1

set_option maxRecDepth 40000 in
theorem clusteredPts0_length : clusteredPts0.length = 256 := by decide

theorem clusteredSorted_perm : List.Perm clusteredSorted clusteredPts0 :=
  clustered_outer_fold_perm (List.range 256) clusteredPts0 clusteredPts0_length

theorem clusteredSorted_length : clusteredSorted.length = 256 :=
  clusteredSorted_perm.length_eq.trans clusteredPts0_length

set_option maxRecDepth 200000 in
theorem clusteredPts0_map_pos : clusteredPts0.map clusteredPos = cells16 := by decide

set_option maxRecDepth 200000 in
theorem cells16_nodup : cells16.Nodup := by decide

set_option maxRecDepth 200000 in
theorem cells16_bounds : ∀ c ∈ cells16, c.1 < 16 ∧ c.2 < 16 := by decide

theorem mem_cells16 (x y : Nat) (hx : x < 16) (hy : y < 16) : (x, y) ∈ cells16 := by
  simp only [cells16, List.mem_flatMap, List.mem_map, List.mem_range]
  exact ⟨y, hy, x, hx, rfl⟩

theorem clusteredSorted_map_pos_perm :
    List.Perm (clusteredSorted.map clusteredPos) cells16 :=
  clusteredPts0_map_pos ▸ clusteredSorted_perm.map clusteredPos

theorem get_map_general {α β : Type} (f : α → β) (l : List α) (i : Nat)
    (h1 : i < l.length) (h2 : i < (l.map f).length) :
    (l.map f).get ⟨i, h2⟩ = f (l.get ⟨i, h1⟩) := by
  rw [List.get_eq_getElem, List.get_eq_getElem, List.getElem_map]

theorem getD_get_general {α : Type} (l : List α) (d : α) (i : Nat) (h : i < l.length) :
    l.getD i d = l.get ⟨i, h⟩ := by
  rw [List.getD_eq_getElem l d h, List.get_eq_getElem]

theorem clusteredSorted_map_pos_length :
    (clusteredSorted.map clusteredPos).length = 256 := by
  rw [List.length_map, clusteredSorted_length]

theorem clusteredPosAt_get (i : Nat) (h1 : i < clusteredSorted.length)
    (h2 : i < (clusteredSorted.map clusteredPos).length) :
    clusteredPosAt i = (clusteredSorted.map clusteredPos).get ⟨i, h2⟩ := by
  rw [get_map_general clusteredPos clusteredSorted i h1 h2, clusteredPosAt,
    getD_get_general clusteredSorted (0, 0, 0) i h1]

theorem clusteredPosAt_bounds (i : Nat) (hi : i < 256) :
    (clusteredPosAt i).1 < 16 ∧ (clusteredPosAt i).2 < 16 := by
  have hmem : clusteredPosAt i ∈ clusteredSorted.map clusteredPos := by
    rw [clusteredPosAt_get i (clusteredSorted_length ▸ hi)
      (clusteredSorted_map_pos_length ▸ hi)]
    exact List.get_mem _ _ _
  exact cells16_bounds _ (clusteredSorted_map_pos_perm.mem_iff.mp hmem)

theorem clusteredPosAt_inj (i1 i2 : Nat) (h1 : i1 < 256) (h2 : i2 < 256)
    (h : clusteredPosAt i1 = clusteredPosAt i2) : i1 = i2 := by
  have hnd : (clusteredSorted.map clusteredPos).Nodup :=
    clusteredSorted_map_pos_perm.nodup_iff.mpr cells16_nodup
  rw [clusteredPosAt_get i1 (clusteredSorted_length ▸ h1) (clusteredSorted_map_pos_length ▸ h1),
    clusteredPosAt_get i2 (clusteredSorted_length ▸ h2)
      (clusteredSorted_map_pos_length ▸ h2)] at h
  have h3 := (List.Nodup.get_inj_iff hnd).mp h
  exact congrArg Fin.val h3

theorem clusteredPosAt_surj (x y : Nat) (hx : x < 16) (hy : y < 16) :
    ∃ i, i < 256 ∧ clusteredPosAt i = (x, y) := by
  have hmem : (x, y) ∈ clusteredSorted.map clusteredPos :=
    clusteredSorted_map_pos_perm.mem_iff.mpr (mem_cells16 x y hx hy)
  rcases List.mem_iff_get.mp hmem with ⟨⟨i, hi⟩, he⟩
  have hi2 : i < 256 := clusteredSorted_map_pos_length ▸ hi
  refine ⟨i, hi2, ?_⟩
  rw [clusteredPosAt_get i (clusteredSorted_length ▸ hi2) hi]
  exact he

theorem getD_set_self_general {α : Type} (l : List α) (i : Nat) (v d : α)
    (h : i < l.length) : (l.set i v).getD i d = v := by
  rw [List.getD_eq_getElem?_getD, List.getElem?_set]
  simp [h]

theorem getD_set_ne_general {α : Type} (l : List α) (i j : Nat) (v d : α)
    (h : i ≠ j) : (l.set i v).getD j d = l.getD j d := by
  rw [List.getD_eq_getElem?_getD, List.getElem?_set, if_neg h, ← List.getD_eq_getElem?_getD]

theorem clusteredPos_fst (p : Nat × Nat × Int) : (clusteredPos p).1 = p.1 := rfl

theorem clusteredPos_snd (p : Nat × Nat × Int) : (clusteredPos p).2 = p.2.1 := rfl

theorem clusteredPosAt_fst (n : Nat) :
    (clusteredPosAt n).1 = (clusteredSorted.getD n (0, 0, 0)).1 := by
  rw [clusteredPosAt, clusteredPos_fst]

theorem clusteredPosAt_snd (n : Nat) :
    (clusteredPosAt n).2 = (clusteredSorted.getD n (0, 0, 0)).2.1 := by
  rw [clusteredPosAt, clusteredPos_snd]

theorem clusteredGridN_succ (n : Nat) :
    clusteredGridN (n + 1)
      = (clusteredGridN n).set (clusteredSorted.getD n (0, 0, 0)).2.1
          (((clusteredGridN n).getD (clusteredSorted.getD n (0, 0, 0)).2.1 []).set
            (clusteredSorted.getD n (0, 0, 0)).1 n) := by
  rw [clusteredGridN, List.range_succ, List.foldl_append, List.foldl_cons, List.foldl_nil,
    ← clusteredGridN]

theorem clusteredGridN_spec : ∀ n, n ≤ 256 →
    (clusteredGridN n).length = 16
    ∧ (∀ y, y < 16 → ((clusteredGridN n).getD y []).length = 16)
    ∧ (∀ x y, x < 16 → y < 16 → ∀ i, i < n → clusteredPosAt i = (x, y) →
        ((clusteredGridN n).getD y []).getD x 0 = i) := by
  intro n
  induction n with
  | zero =>
    intro _
    refine ⟨by decide, fun y hy => ?_, fun x y hx hy i hi => by omega⟩
    have h : (clusteredGridN 0).getD y [] = List.replicate 16 0 := by
      show (List.replicate 16 (List.replicate 16 0)).getD y [] = List.replicate 16 0
      rw [List.getD_eq_getElem?_getD, List.getElem?_replicate, if_pos hy]
      rfl
    rw [h]
    rfl
  | succ n ih =>
    intro hn
    obtain ⟨hL, hRow, hVal⟩ := ih (by omega)
    have hb := clusteredPosAt_bounds n (by omega)
    refine ⟨?_, ?_, ?_⟩
    · rw [clusteredGridN_succ, List.length_set]
      exact hL
    · intro y hy
      rw [clusteredGridN_succ, ← clusteredPosAt_fst, ← clusteredPosAt_snd]
      by_cases hyy : (clusteredPosAt n).2 = y
      · rw [hyy, getD_set_self_general _ _ _ _ (by rw [hL]; rw [hyy] at hb; exact hb.2),
          List.length_set]
        rw [← hyy]
        exact hRow _ hb.2
      · rw [getD_set_ne_general _ _ _ _ _ hyy]
        exact hRow y hy
    · intro x y hx hy i hi hpos
      rw [clusteredGridN_succ, ← clusteredPosAt_fst, ← clusteredPosAt_snd]
      by_cases hin : i = n
      · subst hin
        have hx2 : (clusteredPosAt i).1 = x := by rw [hpos]
        have hy2 : (clusteredPosAt i).2 = y := by rw [hpos]
        rw [hx2, hy2]
        rw [getD_set_self_general _ _ _ _ (by rw [hL]; exact hy)]
        rw [getD_set_self_general _ _ _ _ (by rw [hRow y hy]; exact hx)]
      · have hi2 : i < n := by omega
        have hpn : clusteredPosAt n ≠ (x, y) := by
          intro he
          exact hin (clusteredPosAt_inj i n (by omega) (by omega) (hpos.trans he.symm))
        by_cases hyy : (clusteredPosAt n).2 = y
        · have hxx : (clusteredPosAt n).1 ≠ x := by
            intro hxeq
            apply hpn
            have he2 : clusteredPosAt n = ((clusteredPosAt n).1, (clusteredPosAt n).2) :=
              Prod.mk.eta.symm
            rw [he2, hxeq, hyy]
          rw [hyy]
          rw [getD_set_self_general _ _ _ _ (by rw [hL]; exact hy)]
          rw [getD_set_ne_general _ _ _ _ _ hxx]
          exact hVal x y hx hy i hi2 hpos
        · rw [getD_set_ne_general _ _ _ _ _ hyy]
          exact hVal x y hx hy i hi2 hpos

theorem clusteredGrid_eq : clusteredGrid = clusteredGridN 256 := rfl

theorem clusteredGrid_value (x y : Nat) (hx : x < 16) (hy : y < 16) :
    ∃ i, i < 256 ∧ clusteredPosAt i = (x, y) ∧ dither_clustered16 y x = i := by
  rcases clusteredPosAt_surj x y hx hy with ⟨i, hi, hpos⟩
  refine ⟨i, hi, hpos, ?_⟩
  have h := (clusteredGridN_spec 256 (le_refl 256)).2.2 x y hx hy i hi hpos
  show (clusteredGrid.getD y []).getD x 0 = i
  rw [clusteredGrid_eq]
  exact h

theorem matrixFlatten_as_map (f : Nat → Nat → Nat) :
    matrixFlatten f = cells16.map (fun c => f c.2 c.1) := by
  rw [matrixFlatten, cells16, List.map_flatMap]
  simp only [List.map_map]
  rfl

theorem clustered_flat_nodup : (matrixFlatten dither_clustered16).Nodup := by
  rw [matrixFlatten_as_map]
  refine List.Nodup.map_on ?_ cells16_nodup
  intro c1 h1 c2 h2 he
  obtain ⟨b11, b12⟩ := cells16_bounds c1 h1
  obtain ⟨b21, b22⟩ := cells16_bounds c2 h2
  rcases clusteredGrid_value c1.1 c1.2 b11 b12 with ⟨i1, hi1, hp1, hv1⟩
  rcases clusteredGrid_value c2.1 c2.2 b21 b22 with ⟨i2, hi2, hp2, hv2⟩
  have hii : i1 = i2 := by
    rw [← hv1, ← hv2]
    exact he
  have hps : clusteredPosAt i1 = clusteredPosAt i2 := by rw [hii]
  rw [hp1, hp2] at hps
  have hc1 : c1 = (c1.1, c1.2) := Prod.mk.eta.symm
  have hc2 : c2 = (c2.1, c2.2) := Prod.mk.eta.symm
  rw [hc1, hc2, hps]

theorem clustered_flat_subset :
    ∀ v ∈ matrixFlatten dither_clustered16, v ∈ List.range 256 := by
  rw [matrixFlatten_as_map]
  intro v hv
  rcases List.mem_map.mp hv with ⟨c, hc, hval⟩
  obtain ⟨b1, b2⟩ := cells16_bounds c hc
  rcases clusteredGrid_value c.1 c.2 b1 b2 with ⟨i, hi, _, hvval⟩
  rw [← hval, hvval]
  exact List.mem_range.mpr hi

set_option maxRecDepth 40000 in
theorem cells16_length : cells16.length = 256 := by decide

theorem clustered_flat_perm :
    List.Perm (matrixFlatten dither_clustered16) (List.range 256) := by
  have hsub : List.Subperm (matrixFlatten dither_clustered16) (List.range 256) :=
    List.subperm_of_subset clustered_flat_nodup clustered_flat_subset
  refine hsub.perm_of_length_le ?_
  rw [matrixFlatten_as_map, List.length_map, cells16_length, List.length_range]

theorem range256_sorted : List.Sorted (fun a b => a ≤ b) (List.range 256) :=
  List.Pairwise.imp le_of_lt (List.sorted_lt_range 256)

theorem sorted_flatten_clustered :
    (matrixFlatten dither_clustered16).insertionSort (fun a b => a ≤ b) = List.range 256 :=
  List.eq_of_perm_of_sorted
    ((List.perm_insertionSort _ _).trans clustered_flat_perm)
    (List.sorted_insertionSort _ _)
    range256_sorted

set_option maxRecDepth 100000 in
set_option maxHeartbeats 2000000 in
/-- Claim C4: both the recursively doubled Bayer matrix and the
centre-distance-ranked clustered matrix are permutations of 0..255:
flattening either 16 x 16 matrix and sorting yields exactly [0..255]. -/
theorem dither_matrices_permutation :
    (matrixFlatten dither_bayer16).insertionSort (fun a b => a ≤ b) = List.range 256
    ∧ (matrixFlatten dither_clustered16).insertionSort (fun a b => a ≤ b) = List.range 256 :=
  ⟨by decide, sorted_flatten_clustered⟩

/-! ## Scanline transformer: the packing loop computes tpclPackByte -/

theorem pack8_testBit :
    ∀ c0 c1 c2 c3 c4 c5 c6 c7 : Bool,
      (pack8 c0 c1 c2 c3 c4 c5 c6 c7).testBit 7 = c0 ∧
      (pack8 c0 c1 c2 c3 c4 c5 c6 c7).testBit 6 = c1 ∧
      (pack8 c0 c1 c2 c3 c4 c5 c6 c7).testBit 5 = c2 ∧
      (pack8 c0 c1 c2 c3 c4 c5 c6 c7).testBit 4 = c3 ∧
      (pack8 c0 c1 c2 c3 c4 c5 c6 c7).testBit 3 = c4 ∧
      (pack8 c0 c1 c2 c3 c4 c5 c6 c7).testBit 2 = c5 ∧
      (pack8 c0 c1 c2 c3 c4 c5 c6 c7).testBit 1 = c6 ∧
      (pack8 c0 c1 c2 c3 c4 c5 c6 c7).testBit 0 = c7 := by decide

theorem pack8_update :
    ∀ c0 c1 c2 c3 c4 c5 c6 c7 c : Bool,
      (pack8 c c1 c2 c3 c4 c5 c6 c7
        = if c then pack8 false c1 c2 c3 c4 c5 c6 c7 ||| (0x80 >>> 0)
          else pack8 false c1 c2 c3 c4 c5 c6 c7) ∧
      (pack8 c0 c c2 c3 c4 c5 c6 c7
        = if c then pack8 c0 false c2 c3 c4 c5 c6 c7 ||| (0x80 >>> 1)
          else pack8 c0 false c2 c3 c4 c5 c6 c7) ∧
      (pack8 c0 c1 c c3 c4 c5 c6 c7
        = if c then pack8 c0 c1 false c3 c4 c5 c6 c7 ||| (0x80 >>> 2)
          else pack8 c0 c1 false c3 c4 c5 c6 c7) ∧
      (pack8 c0 c1 c2 c c4 c5 c6 c7
        = if c then pack8 c0 c1 c2 false c4 c5 c6 c7 ||| (0x80 >>> 3)
          else pack8 c0 c1 c2 false c4 c5 c6 c7) ∧
      (pack8 c0 c1 c2 c3 c c5 c6 c7
        = if c then pack8 c0 c1 c2 c3 false c5 c6 c7 ||| (0x80 >>> 4)
          else pack8 c0 c1 c2 c3 false c5 c6 c7) ∧
      (pack8 c0 c1 c2 c3 c4 c c6 c7
        = if c then pack8 c0 c1 c2 c3 c4 false c6 c7 ||| (0x80 >>> 5)
          else pack8 c0 c1 c2 c3 c4 false c6 c7) ∧
      (pack8 c0 c1 c2 c3 c4 c5 c c7
        = if c then pack8 c0 c1 c2 c3 c4 c5 false c7 ||| (0x80 >>> 6)
          else pack8 c0 c1 c2 c3 c4 c5 false c7) ∧
      (pack8 c0 c1 c2 c3 c4 c5 c6 c
        = if c then pack8 c0 c1 c2 c3 c4 c5 c6 false ||| (0x80 >>> 7)
          else pack8 c0 c1 c2 c3 c4 c5 c6 false) := by decide

theorem tpclPackBit_succ_ne (matrix : Nat → Nat → Nat) (y : Nat) (line : List Nat)
    (W x : Nat) (hx : x ≠ W) :
    tpclPackBit matrix y line (W + 1) x = tpclPackBit matrix y line W x := by
  rw [tpclPackBit, tpclPackBit]
  by_cases h : x < W
  · rw [decide_eq_true (by omega : x < W + 1), decide_eq_true h]
  · rw [decide_eq_false (by omega : ¬x < W + 1), decide_eq_false h]

theorem tpclPackBit_succ_self (matrix : Nat → Nat → Nat) (y : Nat) (line : List Nat)
    (W : Nat) : tpclPackBit matrix y line (W + 1) W = tpclPixelOn matrix y line W := by
  rw [tpclPackBit, decide_eq_true (by omega : W < W + 1), Bool.true_and]

theorem tpclPackBit_self (matrix : Nat → Nat → Nat) (y : Nat) (line : List Nat)
    (W : Nat) : tpclPackBit matrix y line W W = false := by
  rw [tpclPackBit, decide_eq_false (by omega : ¬W < W), Bool.false_and]

theorem tpclPackByte_succ_ne (matrix : Nat → Nat → Nat) (y : Nat) (line : List Nat)
    (W j : Nat) (hj : j ≠ W / 8) :
    tpclPackByte matrix y line (W + 1) j = tpclPackByte matrix y line W j := by
  rw [tpclPackByte, tpclPackByte]
  congr 1 <;> exact tpclPackBit_succ_ne matrix y line W _ (by omega)

theorem tpclPackByte_succ_self (matrix : Nat → Nat → Nat) (y : Nat) (line : List Nat)
    (W : Nat) :
    tpclPackByte matrix y line (W + 1) (W / 8)
      = (if tpclPixelOn matrix y line W then
          tpclPackByte matrix y line W (W / 8) ||| (0x80 >>> (W % 8))
         else tpclPackByte matrix y line W (W / 8)) := by
  obtain ⟨r, hrW, hr8⟩ : ∃ r, W % 8 = r ∧ r < 8 := ⟨W % 8, rfl, Nat.mod_lt _ (by omega)⟩
  rw [hrW]
  have hWd : 8 * (W / 8) + r = W := by omega
  rw [tpclPackByte, tpclPackByte]
  have hne : ∀ b, b ≠ r →
      tpclPackBit matrix y line (W + 1) (8 * (W / 8) + b)
        = tpclPackBit matrix y line W (8 * (W / 8) + b) := by
    intro b hb
    exact tpclPackBit_succ_ne matrix y line W _ (by omega)
  have hself1 : tpclPackBit matrix y line (W + 1) (8 * (W / 8) + r)
      = tpclPixelOn matrix y line W := by
    rw [hWd]
    exact tpclPackBit_succ_self matrix y line W
  have hself0 : tpclPackBit matrix y line W (8 * (W / 8) + r) = false := by
    rw [hWd]
    exact tpclPackBit_self matrix y line W
  interval_cases r
  · rw [hself1, hself0, hne 1 (by omega), hne 2 (by omega), hne 3 (by omega), hne 4 (by omega), hne 5 (by omega), hne 6 (by omega), hne 7 (by omega)]
    exact (pack8_update false (tpclPackBit matrix y line W (8 * (W / 8) + 1)) (tpclPackBit matrix y line W (8 * (W / 8) + 2)) (tpclPackBit matrix y line W (8 * (W / 8) + 3)) (tpclPackBit matrix y line W (8 * (W / 8) + 4)) (tpclPackBit matrix y line W (8 * (W / 8) + 5)) (tpclPackBit matrix y line W (8 * (W / 8) + 6)) (tpclPackBit matrix y line W (8 * (W / 8) + 7)) (tpclPixelOn matrix y line W)).1
  · rw [hself1, hself0, hne 0 (by omega), hne 2 (by omega), hne 3 (by omega), hne 4 (by omega), hne 5 (by omega), hne 6 (by omega), hne 7 (by omega)]
    exact (pack8_update (tpclPackBit matrix y line W (8 * (W / 8) + 0)) false (tpclPackBit matrix y line W (8 * (W / 8) + 2)) (tpclPackBit matrix y line W (8 * (W / 8) + 3)) (tpclPackBit matrix y line W (8 * (W / 8) + 4)) (tpclPackBit matrix y line W (8 * (W / 8) + 5)) (tpclPackBit matrix y line W (8 * (W / 8) + 6)) (tpclPackBit matrix y line W (8 * (W / 8) + 7)) (tpclPixelOn matrix y line W)).2.1
  · rw [hself1, hself0, hne 0 (by omega), hne 1 (by omega), hne 3 (by omega), hne 4 (by omega), hne 5 (by omega), hne 6 (by omega), hne 7 (by omega)]
    exact (pack8_update (tpclPackBit matrix y line W (8 * (W / 8) + 0)) (tpclPackBit matrix y line W (8 * (W / 8) + 1)) false (tpclPackBit matrix y line W (8 * (W / 8) + 3)) (tpclPackBit matrix y line W (8 * (W / 8) + 4)) (tpclPackBit matrix y line W (8 * (W / 8) + 5)) (tpclPackBit matrix y line W (8 * (W / 8) + 6)) (tpclPackBit matrix y line W (8 * (W / 8) + 7)) (tpclPixelOn matrix y line W)).2.2.1
  · rw [hself1, hself0, hne 0 (by omega), hne 1 (by omega), hne 2 (by omega), hne 4 (by omega), hne 5 (by omega), hne 6 (by omega), hne 7 (by omega)]
    exact (pack8_update (tpclPackBit matrix y line W (8 * (W / 8) + 0)) (tpclPackBit matrix y line W (8 * (W / 8) + 1)) (tpclPackBit matrix y line W (8 * (W / 8) + 2)) false (tpclPackBit matrix y line W (8 * (W / 8) + 4)) (tpclPackBit matrix y line W (8 * (W / 8) + 5)) (tpclPackBit matrix y line W (8 * (W / 8) + 6)) (tpclPackBit matrix y line W (8 * (W / 8) + 7)) (tpclPixelOn matrix y line W)).2.2.2.1
  · rw [hself1, hself0, hne 0 (by omega), hne 1 (by omega), hne 2 (by omega), hne 3 (by omega), hne 5 (by omega), hne 6 (by omega), hne 7 (by omega)]
    exact (pack8_update (tpclPackBit matrix y line W (8 * (W / 8) + 0)) (tpclPackBit matrix y line W (8 * (W / 8) + 1)) (tpclPackBit matrix y line W (8 * (W / 8) + 2)) (tpclPackBit matrix y line W (8 * (W / 8) + 3)) false (tpclPackBit matrix y line W (8 * (W / 8) + 5)) (tpclPackBit matrix y line W (8 * (W / 8) + 6)) (tpclPackBit matrix y line W (8 * (W / 8) + 7)) (tpclPixelOn matrix y line W)).2.2.2.2.1
  · rw [hself1, hself0, hne 0 (by omega), hne 1 (by omega), hne 2 (by omega), hne 3 (by omega), hne 4 (by omega), hne 6 (by omega), hne 7 (by omega)]
    exact (pack8_update (tpclPackBit matrix y line W (8 * (W / 8) + 0)) (tpclPackBit matrix y line W (8 * (W / 8) + 1)) (tpclPackBit matrix y line W (8 * (W / 8) + 2)) (tpclPackBit matrix y line W (8 * (W / 8) + 3)) (tpclPackBit matrix y line W (8 * (W / 8) + 4)) false (tpclPackBit matrix y line W (8 * (W / 8) + 6)) (tpclPackBit matrix y line W (8 * (W / 8) + 7)) (tpclPixelOn matrix y line W)).2.2.2.2.2.1
  · rw [hself1, hself0, hne 0 (by omega), hne 1 (by omega), hne 2 (by omega), hne 3 (by omega), hne 4 (by omega), hne 5 (by omega), hne 7 (by omega)]
    exact (pack8_update (tpclPackBit matrix y line W (8 * (W / 8) + 0)) (tpclPackBit matrix y line W (8 * (W / 8) + 1)) (tpclPackBit matrix y line W (8 * (W / 8) + 2)) (tpclPackBit matrix y line W (8 * (W / 8) + 3)) (tpclPackBit matrix y line W (8 * (W / 8) + 4)) (tpclPackBit matrix y line W (8 * (W / 8) + 5)) false (tpclPackBit matrix y line W (8 * (W / 8) + 7)) (tpclPixelOn matrix y line W)).2.2.2.2.2.2.1
  · rw [hself1, hself0, hne 0 (by omega), hne 1 (by omega), hne 2 (by omega), hne 3 (by omega), hne 4 (by omega), hne 5 (by omega), hne 6 (by omega)]
    exact (pack8_update (tpclPackBit matrix y line W (8 * (W / 8) + 0)) (tpclPackBit matrix y line W (8 * (W / 8) + 1)) (tpclPackBit matrix y line W (8 * (W / 8) + 2)) (tpclPackBit matrix y line W (8 * (W / 8) + 3)) (tpclPackBit matrix y line W (8 * (W / 8) + 4)) (tpclPackBit matrix y line W (8 * (W / 8) + 5)) (tpclPackBit matrix y line W (8 * (W / 8) + 6)) false (tpclPixelOn matrix y line W)).2.2.2.2.2.2.2

theorem foldl_set_length {α : Type} (step : List α → Nat → List α)
    (hstep : ∀ b x, (step b x).length = b.length) :
    ∀ (xs : List Nat) (buf : List α), (xs.foldl step buf).length = buf.length := by
  intro xs
  induction xs with
  | nil => intro buf; rfl
  | cons x xs ih =>
    intro buf
    rw [List.foldl_cons, ih, hstep]

theorem tpcl_dither_pack_length (matrix : Nat → Nat → Nat) (y : Nat) (line : List Nat)
    (W BL : Nat) : (tpcl_dither_pack matrix y line W BL).length = BL := by
  rw [tpcl_dither_pack]
  rw [foldl_set_length _ ?_ (List.range W) (List.replicate BL 0), List.length_replicate]
  intro b x
  split
  · rw [List.length_set]
  · rfl

theorem tpcl_dither_pack_zero (matrix : Nat → Nat → Nat) (y : Nat) (line : List Nat)
    (BL : Nat) : tpcl_dither_pack matrix y line 0 BL = List.replicate BL 0 := rfl

theorem tpcl_dither_pack_succ (matrix : Nat → Nat → Nat) (y : Nat) (line : List Nat)
    (W BL : Nat) :
    tpcl_dither_pack matrix y line (W + 1) BL
      = (if tpclPixelOn matrix y line W then
          (tpcl_dither_pack matrix y line W BL).set (W / 8)
            ((tpcl_dither_pack matrix y line W BL).getD (W / 8) 0 ||| (0x80 >>> (W &&& 7)))
         else tpcl_dither_pack matrix y line W BL) := by
  rw [tpcl_dither_pack, List.range_succ, List.foldl_append, List.foldl_cons, List.foldl_nil,
    ← tpcl_dither_pack]

theorem tpclPackBit_zero (matrix : Nat → Nat → Nat) (y : Nat) (line : List Nat) (x : Nat) :
    tpclPackBit matrix y line 0 x = false := by
  rw [tpclPackBit, decide_eq_false (by omega : ¬x < 0), Bool.false_and]

theorem tpcl_dither_pack_getD (matrix : Nat → Nat → Nat) (y : Nat) (line : List Nat) :
    ∀ W BL j, j < BL →
      (tpcl_dither_pack matrix y line W BL).getD j 0 = tpclPackByte matrix y line W j := by
  intro W
  induction W with
  | zero =>
    intro BL j hj
    rw [tpcl_dither_pack_zero, tpclPackByte]
    rw [tpclPackBit_zero, tpclPackBit_zero, tpclPackBit_zero, tpclPackBit_zero,
      tpclPackBit_zero, tpclPackBit_zero, tpclPackBit_zero, tpclPackBit_zero]
    rw [List.getD_eq_getElem?_getD, List.getElem?_replicate, if_pos hj]
    decide
  | succ W ih =>
    intro BL j hj
    rw [tpcl_dither_pack_succ]
    rw [Nat.and_pow_two_sub_one_eq_mod W 3]
    by_cases hjw : j = W / 8
    · subst hjw
      rw [tpclPackByte_succ_self]
      by_cases hc : tpclPixelOn matrix y line W
      · rw [if_pos hc, if_pos hc]
        rw [getD_set_self_general _ _ _ _ (by rw [tpcl_dither_pack_length]; exact hj)]
        rw [ih BL _ hj]
      · rw [if_neg hc, if_neg hc]
        exact ih BL _ hj
    · rw [tpclPackByte_succ_ne matrix y line W j hjw]
      by_cases hc : tpclPixelOn matrix y line W
      · rw [if_pos hc]
        rw [getD_set_ne_general _ _ _ _ _ (fun h => hjw h.symm)]
        exact ih BL j hj
      · rw [if_neg hc]
        exact ih BL j hj

theorem tpclPackByte_testBit (matrix : Nat → Nat → Nat) (y : Nat) (line : List Nat)
    (W j b : Nat) (hb : b < 8) :
    (tpclPackByte matrix y line W j).testBit (7 - b)
      = tpclPackBit matrix y line W (8 * j + b) := by
  rw [tpclPackByte]
  have h := pack8_testBit (tpclPackBit matrix y line W (8 * j + 0))
    (tpclPackBit matrix y line W (8 * j + 1)) (tpclPackBit matrix y line W (8 * j + 2))
    (tpclPackBit matrix y line W (8 * j + 3)) (tpclPackBit matrix y line W (8 * j + 4))
    (tpclPackBit matrix y line W (8 * j + 5)) (tpclPackBit matrix y line W (8 * j + 6))
    (tpclPackBit matrix y line W (8 * j + 7))
  interval_cases b
  · exact h.1
  · exact h.2.1
  · exact h.2.2.1
  · exact h.2.2.2.1
  · exact h.2.2.2.2.1
  · exact h.2.2.2.2.2.1
  · exact h.2.2.2.2.2.2.1
  · exact h.2.2.2.2.2.2.2

/-- Claim C5: for an 8-bit scanline the transformer packs, into a zeroed
buffer_len-byte output, bit 7-(x mod 8) of byte x/8 set exactly when the
sample at x is at or above matrix[y mod 16][x mod 16] (MSB first, eight
pixels per byte); with the SW colour space every output byte is then
bitwise-complemented; a 1-bit scanline is copied verbatim before the
polarity step.  buffer_len is tied to cupsBytesPerLine by the formula of
tpcl_rstartjob_cb. -/
theorem tpcl_scanline_transformer_spec (matrix : Nat → Nat → Nat) (y : Nat) (line : List Nat)
    (W BL : Nat) (hBL : BL = W / 8) :
    (tpcl_rwriteline_transform 8 CUPS_CSPACE_K matrix y line W BL
        = (none, false, tpcl_dither_pack matrix y line W BL))
    ∧ (∀ j, j < BL → ∀ b, b < 8 →
        ((tpcl_dither_pack matrix y line W BL).getD j 0).testBit (7 - b)
          = decide (matrix (y % 16) ((8 * j + b) % 16) ≤ line.getD (8 * j + b) 0))
    ∧ (tpcl_rwriteline_transform 8 CUPS_CSPACE_SW matrix y line W BL
        = (none, false, (tpcl_dither_pack matrix y line W BL).map (fun v => v ^^^ 0xFF)))
    ∧ (line.length = W →
        tpcl_rwriteline_transform 1 CUPS_CSPACE_K matrix y line W BL = (none, false, line)) := by
  refine ⟨?_, ?_, ?_, ?_⟩
  · simp [tpcl_rwriteline_transform, tpcl_polarity, CUPS_CSPACE_K, CUPS_CSPACE_SW]
  · intro j hj b hb
    rw [tpcl_dither_pack_getD matrix y line W BL j hj,
      tpclPackByte_testBit matrix y line W j b hb, tpclPackBit]
    have hx : 8 * j + b < W := by
      subst hBL
      omega
    rw [decide_eq_true hx, Bool.true_and, tpclPixelOn]
    have hy16 : y &&& 15 = y % 16 := Nat.and_pow_two_sub_one_eq_mod y 4
    have hx16 : (8 * j + b) &&& 15 = (8 * j + b) % 16 :=
      Nat.and_pow_two_sub_one_eq_mod (8 * j + b) 4
    rw [hy16, hx16]
  · simp [tpcl_rwriteline_transform, tpcl_polarity, CUPS_CSPACE_K, CUPS_CSPACE_SW]
  · intro hlen
    subst hlen
    simp [tpcl_rwriteline_transform, tpcl_polarity, CUPS_CSPACE_K, CUPS_CSPACE_SW]

/-- Claim C5 (witness): one pixel of a concrete 16-pixel 8-bit line
against the constant threshold matrix. -/
theorem tpcl_scanline_transformer_witness :
    ((tpcl_dither_pack (dither_threshold16 128) 0 [200, 90] 16 2).getD 0 0).testBit (7 - 0)
      = decide (dither_threshold16 128 (0 % 16) ((8 * 0 + 0) % 16)
          ≤ [200, 90].getD (8 * 0 + 0) 0) :=
  (tpcl_scanline_transformer_spec (dither_threshold16 128) 0 [200, 90] 16 2 (by decide)).2.1
    0 (by decide) 0 (by decide)

/-- Claim C9: the scanline transformer fails exactly when the bit depth
is neither 1 nor 8 (UnsupportedFormat, checked first) or the colour
space is neither K (1 = black) nor SW (1 = white)
(UnsupportedColorSpace); on every failure the job buffers are released
before the error propagates. -/
theorem tpcl_writeline_failure_spec (bpp cspace : Nat) (matrix : Nat → Nat → Nat) (y : Nat)
    (line : List Nat) (W BL : Nat) :
    ((tpcl_rwriteline_transform bpp cspace matrix y line W BL).1 ≠ none
        ↔ ((bpp ≠ 1 ∧ bpp ≠ 8) ∨ (cspace ≠ CUPS_CSPACE_K ∧ cspace ≠ CUPS_CSPACE_SW)))
    ∧ ((bpp ≠ 1 ∧ bpp ≠ 8) →
        (tpcl_rwriteline_transform bpp cspace matrix y line W BL).1
          = some TpclWlError.unsupportedFormat)
    ∧ ((bpp = 1 ∨ bpp = 8) → cspace ≠ CUPS_CSPACE_K → cspace ≠ CUPS_CSPACE_SW →
        (tpcl_rwriteline_transform bpp cspace matrix y line W BL).1
          = some TpclWlError.unsupportedColorSpace)
    ∧ ((tpcl_rwriteline_transform bpp cspace matrix y line W BL).1 ≠ none →
        (tpcl_rwriteline_transform bpp cspace matrix y line W BL).2.1 = true) := by
  by_cases h8 : bpp = 8 <;> by_cases h1 : bpp = 1 <;>
    by_cases hsw : cspace = CUPS_CSPACE_SW <;> by_cases hk : cspace = CUPS_CSPACE_K <;>
    simp_all [tpcl_rwriteline_transform, tpcl_polarity, CUPS_CSPACE_K, CUPS_CSPACE_SW]

/-- Claim C9 (witness): an unsupported 4-bit depth fails with
UnsupportedFormat and releases the buffers. -/
theorem tpcl_writeline_failure_witness :
    (tpcl_rwriteline_transform 4 3 (fun _ _ => 0) 0 [] 0 0).1
        = some TpclWlError.unsupportedFormat
      ∧ (tpcl_rwriteline_transform 4 3 (fun _ _ => 0) 0 [] 0 0).2.1 = true :=
  ⟨(tpcl_writeline_failure_spec 4 3 (fun _ _ => 0) 0 [] 0 0).2.1 (by decide),
   (tpcl_writeline_failure_spec 4 3 (fun _ _ => 0) 0 [] 0 0).2.2.2 (by decide)⟩

theorem tpcl_nibble_byte_values (b : Nat) (hb : b < 256) :
    tpcl_nibble_encode_byte b = [0x30 ||| (b / 16), 0x30 ||| (b % 16)]
      ∧ tpcl_nibble_decode_pair (0x30 ||| (b / 16)) (0x30 ||| (b % 16)) = b := by
  interval_cases b <;> exact ⟨rfl, rfl⟩

/-- Claim C8: nibble-ASCII encoding sends each byte b as the two bytes
0x30 with the high nibble then 0x30 with the low nibble, doubling the
transmitted size, and recombining the low nibbles of the two ASCII
bytes (high first) restores b, for every byte value. -/
theorem tpcl_nibble_roundtrip (b : Nat) (hb : b < 256) :
    (tpcl_nibble_encode_byte b).length = 2
    ∧ tpcl_nibble_encode_byte b = [0x30 ||| (b / 16), 0x30 ||| (b % 16)]
    ∧ tpcl_nibble_decode_pair (0x30 ||| (b / 16)) (0x30 ||| (b % 16)) = b
    ∧ ∀ line : List Nat, (tpcl_nibble_encode_line line).length = 2 * line.length := by
  obtain ⟨he, hd⟩ := tpcl_nibble_byte_values b hb
  refine ⟨rfl, he, hd, ?_⟩
  intro line
  induction line with
  | nil => rfl
  | cons x xs ih =>
    simp only [tpcl_nibble_encode_line, List.flatMap_cons, List.length_append,
      List.length_cons] at ih ⊢
    simp only [tpcl_nibble_encode_byte, List.length_cons, List.length_nil]
    omega

/-- Claim C8 (witness): the byte 0xA7 encodes to 0x3A, 0x37 and decodes
back. -/
theorem tpcl_nibble_roundtrip_witness :
    tpcl_nibble_encode_byte 0xA7 = [0x30 ||| (0xA7 / 16), 0x30 ||| (0xA7 % 16)]
      ∧ tpcl_nibble_decode_pair (0x30 ||| (0xA7 / 16)) (0x30 ||| (0xA7 % 16)) = 0xA7 :=
  ⟨(tpcl_nibble_roundtrip 0xA7 (by decide)).2.1,
   (tpcl_nibble_roundtrip 0xA7 (by decide)).2.2.1⟩

/-- Claim C6: refuted by the code for 8-bit depth at widths that are not
a multiple of 8.  buffer_len = cupsBytesPerLine / cupsBitsPerPixel is
floor(width / 8) for 8-bit input (cupsBytesPerLine = width), not
ceil(width / 8): at width 9 the job transmits 1 byte per line where the
spec requires 2, so the 9th pixel of every line is dropped; the 1-bit
computation does give the ceiling. -/
theorem tpcl_buffer_len_floor_bug :
    tpcl_buffer_len 9 8 = 1 ∧ (9 + 7) / 8 = 2 ∧ tpcl_buffer_len 9 1 = 2
      ∧ cups_bytes_per_line 9 8 = 9 := by
  decide

/-- Claim C7: the geometry tracker reports changed and writes the new
record when no valid persisted record loads; on a hit it reports
unchanged and leaves the store untouched exactly when all four fields
match, and writes the new record and reports changed when any field
differs.  In particular a first call with no prior record, a second
identical call, and a third call with width + 1 report changed,
unchanged, changed. -/
theorem tpcl_state_tracker_spec (store : Option TpclStateFileContent) (w h g m : Int)
    (hw : 0 ≤ w) (hh : 0 ≤ h) (hg : 0 ≤ g) (hm : 0 ≤ m) :
    (load_state_from_file store = none →
        tpcl_state_check_and_update store w h g m
          = (true, some (save_state_to_file w h g m)))
    ∧ (∀ st, load_state_from_file store = some st →
        (st = ⟨w, h, g, m⟩ →
          tpcl_state_check_and_update store w h g m = (false, store))
        ∧ (st ≠ ⟨w, h, g, m⟩ →
          tpcl_state_check_and_update store w h g m
            = (true, some (save_state_to_file w h g m))))
    ∧ ((tpcl_state_check_and_update none w h g m).1 = true
        ∧ (tpcl_state_check_and_update
            (tpcl_state_check_and_update none w h g m).2 w h g m).1 = false
        ∧ (tpcl_state_check_and_update
            (tpcl_state_check_and_update
              (tpcl_state_check_and_update none w h g m).2 w h g m).2
            (w + 1) h g m).1 = true) := by
  have hload : load_state_from_file (some (save_state_to_file w h g m))
      = some ⟨w, h, g, m⟩ := by
    simp only [load_state_from_file, save_state_to_file, Option.getD_some]
    rw [if_neg (by omega)]
  have hstep1 : tpcl_state_check_and_update none w h g m
      = (true, some (save_state_to_file w h g m)) := by
    simp [tpcl_state_check_and_update, load_state_from_file]
  have hstep2 : tpcl_state_check_and_update (some (save_state_to_file w h g m)) w h g m
      = (false, some (save_state_to_file w h g m)) := by
    simp [tpcl_state_check_and_update, hload, state_has_changed]
  refine ⟨?_, ?_, ?_, ?_, ?_⟩
  · intro hmiss
    simp [tpcl_state_check_and_update, hmiss]
  · intro st hst
    constructor
    · intro he
      subst he
      simp [tpcl_state_check_and_update, hst, state_has_changed]
    · intro hne
      have hch : state_has_changed st w h g m = true := by
        cases st with
        | mk a b c d =>
          simp only [state_has_changed, Bool.or_eq_true, bne_iff_ne, ne_eq]
          by_contra hc
          push_neg at hc
          obtain ⟨ha, hb2, hc2, hd2⟩ := hc
          exact hne (by simp_all)
      simp [tpcl_state_check_and_update, hst, hch]
  · rw [hstep1]
  · rw [hstep1, hstep2]
  · rw [hstep1, hstep2]
    simp [tpcl_state_check_and_update, hload, state_has_changed]

/-- Claim C7 (witness): the three-call scenario at the concrete geometry
800 x 1200 with gap 50 and margin 10. -/
theorem tpcl_state_tracker_witness :
    (tpcl_state_check_and_update none 800 1200 50 10).1 = true
    ∧ (tpcl_state_check_and_update
        (tpcl_state_check_and_update none 800 1200 50 10).2 800 1200 50 10).1 = false
    ∧ (tpcl_state_check_and_update
        (tpcl_state_check_and_update
          (tpcl_state_check_and_update none 800 1200 50 10).2 800 1200 50 10).2
        (800 + 1) 1200 50 10).1 = true :=
  (tpcl_state_tracker_spec none 800 1200 50 10
    (by decide) (by decide) (by decide) (by decide)).2.2

/-- Claim C10: flushing with an empty accumulator writes nothing to the
device, returns 0 and leaves the job state untouched; flushing a
non-empty accumulator (the cursor never passes 65535 between flushes)
emits the SG command head, the 2-byte big-endian length, the
accumulated bytes and the closing frame, and resets the accumulator,
cursor and previous-line buffer. -/
theorem tpcl_topix_flush_spec (W : Nat) (s : TopixJobState)
    (yOffset widthDots resolution gmode : Nat) (hcap : s.comp_acc.length ≤ 65535) :
    (s.comp_acc = [] →
        tpcl_topix_flush W s yOffset widthDots resolution gmode = (0, [], s))
    ∧ (s.comp_acc ≠ [] →
        tpcl_topix_flush W s yOffset widthDots resolution gmode
          = ((topixSGHeader yOffset widthDots resolution gmode).length
                + (2 + (s.comp_acc.length + 3)),
             [DevWrite.puts (topixSGHeader yOffset widthDots resolution gmode),
              DevWrite.bytes [s.comp_acc.length / 256, s.comp_acc.length % 256],
              DevWrite.bytes s.comp_acc,
              DevWrite.puts ("|\x7d\n")],
             topixInitState W)) := by
  have hmod : s.comp_acc.length % 65536 = s.comp_acc.length :=
    Nat.mod_eq_of_lt (by omega)
  constructor
  · intro he
    simp [tpcl_topix_flush, he]
  · intro hne
    have hpos : s.comp_acc.length ≠ 0 := fun hc => hne (List.eq_nil_of_length_eq_zero hc)
    simp only [tpcl_topix_flush, hmod]
    rw [if_neg hpos, List.take_length]

/-- Claim C10 (witness): a concrete flush of the 1-byte accumulator
0x05, and of the empty accumulator. -/
theorem tpcl_topix_flush_witness :
    tpcl_topix_flush 1 ⟨[0], [5]⟩ 0 100 200 1
      = ((topixSGHeader 0 100 200 1).length + (2 + (1 + 3)),
         [DevWrite.puts (topixSGHeader 0 100 200 1),
          DevWrite.bytes [0, 1],
          DevWrite.bytes [5],
          DevWrite.puts ("|\x7d\n")],
         topixInitState 1)
    ∧ tpcl_topix_flush 1 ⟨[0], []⟩ 0 100 200 1 = (0, [], ⟨[0], []⟩) :=
  ⟨(tpcl_topix_flush_spec 1 ⟨[0], [5]⟩ 0 100 200 1 (by decide)).2 (by decide),
   (tpcl_topix_flush_spec 1 ⟨[0], []⟩ 0 100 200 1 (by decide)).1 rfl⟩

set_option maxRecDepth 10000 in
theorem topix_compress_one_zero : tpcl_topix_compress_line [1] [0] = [128, 128, 128, 1] := by
  decide

set_option maxRecDepth 10000 in
theorem topix_compress_zero_one : tpcl_topix_compress_line [0] [1] = [128, 128, 128, 1] := by
  decide

theorem topix_step_noflush (prev line acc out : List Nat)
    (hout : tpcl_topix_compress_line line prev = out)
    (hsz : (acc ++ out).length ≤ topixBufferThreshold 1) :
    tpcl_writeline_topix_step 1 ⟨prev, acc⟩ line false
      = (⟨line, acc ++ out⟩, (acc ++ out).length) := by
  simp only [tpcl_writeline_topix_step, hout]
  rw [if_neg]
  simp only [Bool.false_eq_true, or_false]
  omega

theorem topix_step_flush (prev line acc out : List Nat)
    (hout : tpcl_topix_compress_line line prev = out)
    (hsz : topixBufferThreshold 1 < (acc ++ out).length) :
    tpcl_writeline_topix_step 1 ⟨prev, acc⟩ line false
      = (topixInitState 1, (acc ++ out).length) := by
  simp only [tpcl_writeline_topix_step, hout]
  rw [if_pos (Or.inl hsz)]

theorem topix_alt_overflow : ∀ n, ∀ acc : List Nat,
    acc.length + 8 * n = 65536 → 1 ≤ n →
    65536 ∈ topixRunPeaks 1 ⟨[0], acc⟩ (topixAltPairs n) := by
  intro n
  induction n with
  | zero =>
    intro acc hlen h1
    exact absurd h1 (by omega)
  | succ n ih =>
    intro acc hlen _
    have h1 : tpcl_writeline_topix_step 1 ⟨[0], acc⟩ [1] false
        = (⟨[1], acc ++ [128, 128, 128, 1]⟩, (acc ++ [128, 128, 128, 1]).length) :=
      topix_step_noflush [0] [1] acc _ topix_compress_one_zero
        (by simp [topixBufferThreshold]; omega)
    rcases Nat.eq_zero_or_pos n with hn | hn
    · subst hn
      have h2 : tpcl_writeline_topix_step 1 ⟨[1], acc ++ [128, 128, 128, 1]⟩ [0] false
          = (topixInitState 1, ((acc ++ [128, 128, 128, 1]) ++ [128, 128, 128, 1]).length) :=
        topix_step_flush [1] [0] _ _ topix_compress_zero_one
          (by simp [topixBufferThreshold]; omega)
      rw [topixAltPairs, topixAltPairs, topixRunPeaks]
      simp only [h1]
      rw [topixRunPeaks]
      simp only [h2]
      rw [topixRunPeaks]
      have hfin : ((acc ++ [128, 128, 128, 1]) ++ [128, 128, 128, 1]).length = 65536 := by
        simp
        omega
      rw [hfin]
      simp
    · have h2 : tpcl_writeline_topix_step 1 ⟨[1], acc ++ [128, 128, 128, 1]⟩ [0] false
          = (⟨[0], (acc ++ [128, 128, 128, 1]) ++ [128, 128, 128, 1]⟩,
             ((acc ++ [128, 128, 128, 1]) ++ [128, 128, 128, 1]).length) :=
        topix_step_noflush [1] [0] _ _ topix_compress_zero_one
          (by simp [topixBufferThreshold]; omega)
      rw [topixAltPairs, topixRunPeaks]
      simp only [h1]
      rw [topixRunPeaks]
      simp only [h2]
      refine List.mem_cons_of_mem _ (List.mem_cons_of_mem _ ?_)
      exact ih ((acc ++ [128, 128, 128, 1]) ++ [128, 128, 128, 1]) (by simp; omega) hn

set_option maxRecDepth 10000 in
/-- Claim C2: refuted by the code for 1-byte lines.  The reserve
buffer_len + (buffer_len / 8) * 3 understates the worst-case cost of one
more compressed line when buffer_len = 1 (a changed 1-byte line costs 4
bytes: level-1, level-2, level-3 bitmask bytes plus the delta byte), so
8192 pairs of alternating 0x01 / 0x00 lines drive the accumulator to a
peak of 65536 bytes, past the 65535-byte compression buffer, before the
flush triggered by threshold 65534 resets it. -/
theorem tpcl_topix_accumulator_overflow :
    topixBufferThreshold 1 = 65534
    ∧ tpcl_topix_compress_line [1] [0] = [128, 128, 128, 1]
    ∧ 65536 ∈ topixRunPeaks 1 (topixInitState 1) (topixAltPairs 8192) := by
  refine ⟨by decide, by decide, ?_⟩
  exact topix_alt_overflow 8192 [] (by norm_num) (by norm_num)
